import Mathlib

/-!
Verification of the announce delivery queue of the clawdbot repository.

The embedding below follows the queue code in
src/apps/android/app/src/main/java/com/steipete/clawdis/node/node/CanvasController.kt
(the announce-queue section: getAnnounceQueue, enqueueAnnounce, elideText,
buildQueueSummaryLine, waitForQueueDebounce, buildSummaryPrompt,
buildCollectPrompt, hasCrossChannelItems, scheduleAnnounceDrain).

Modelling conventions:
  - JavaScript numbers used as times and settings become Nat or Int with the
    clamping the source performs made explicit.
  - The process-wide Map becomes an association list with Map semantics.
  - The whitespace class of the JavaScript regex \s and of trim is modelled by
    the ASCII whitespace characters; the claims under verification only ever
    exercise this subset.
  - Strings are lists of characters; the source operates on short prompt
    strings where JavaScript UTF-16 length and character count agree.
-/

/-- Delivery mode of a queue, from the QueueMode union type. -/
inductive QueueMode
  | immediate
  | followup
  | collect
  | steer
  | steerBacklog
  | interrupt
  deriving DecidableEq, Repr

/-- Drop policy of a queue, from the QueueDropPolicy union type: the value
new is the reject-new policy, the value summarize is evict-oldest-and-summarize. -/
inductive QueueDropPolicy
  | new
  | summarize
  deriving DecidableEq, Repr

/-- One pending announce, from the AnnounceQueueItem type. -/
structure AnnounceQueueItem where
  prompt : String
  summaryLine : Option String
  enqueuedAt : Nat
  sessionKey : String
  originatingChannel : Option String
  originatingTo : Option String
  originatingAccountId : Option String
  deriving DecidableEq, Repr

/-- Per-key queue state, from the AnnounceQueueState type. -/
structure AnnounceQueueState where
  items : List AnnounceQueueItem
  draining : Bool
  lastEnqueuedAt : Nat
  mode : QueueMode
  debounceMs : Nat
  cap : Nat
  dropPolicy : QueueDropPolicy
  droppedCount : Nat
  summaryLines : List String
  deriving DecidableEq, Repr

/-- The settings record passed to getAnnounceQueue and enqueueAnnounce; the
optional numeric fields model the optional JavaScript fields, using Int so
that the clamping in the source stays visible. -/
structure QueueSettingsIn where
  mode : QueueMode
  debounceMs : Option Int
  cap : Option Int
  dropPolicy : Option QueueDropPolicy
  deriving DecidableEq, Repr

/-- The process-wide ANNOUNCE_QUEUES map, as an association list. -/
abbrev QueueStore := List (String × AnnounceQueueState)

/-- Map lookup. -/
def storeFind (store : QueueStore) (key : String) : Option AnnounceQueueState :=
  match store with
  | [] => none
  | (k, q) :: rest => if k = key then some q else storeFind rest key

/-- Map set: overwrite the entry for the key, or append a new entry. -/
def storeSet (store : QueueStore) (key : String) (q : AnnounceQueueState) : QueueStore :=
  match store with
  | [] => [(key, q)]
  | (k, q0) :: rest => if k = key then (k, q) :: rest else (k, q0) :: storeSet rest key q

/-- Map delete. -/
def storeErase (store : QueueStore) (key : String) : QueueStore :=
  store.filter (fun p => p.1 != key)

/-- The ASCII part of the whitespace class recognised by the JavaScript
regex \s and by trim. -/
def jsIsSpace (c : Char) : Bool :=
  c = ' ' || c = '\t' || c = '\n' || c = '\r' || c = '\x0b' || c = '\x0c'

/-- Drop leading whitespace of a character list. -/
def trimStartL (l : List Char) : List Char := l.dropWhile jsIsSpace

/-- Drop trailing whitespace of a character list. -/
def trimEndL (l : List Char) : List Char := (l.reverse.dropWhile jsIsSpace).reverse

/-- The JavaScript trim method. -/
def jsTrim (s : String) : String := ⟨trimEndL (trimStartL s.data)⟩

/-- The JavaScript trimEnd method. -/
def jsTrimEnd (s : String) : String := ⟨trimEndL s.data⟩

/-- The replacement of every maximal whitespace run by a single space, as
performed by replace with the global regex of one-or-more whitespace. -/
def collapseWs : List Char → List Char
  | [] => []
  | [c] => if jsIsSpace c then [' '] else [c]
  | a :: b :: rest =>
    if jsIsSpace a && jsIsSpace b then collapseWs (b :: rest)
    else (if jsIsSpace a then ' ' else a) :: collapseWs (b :: rest)

/-- elideText from the source: keep a string of at most limit characters,
otherwise truncate to limit minus one characters, drop trailing whitespace
and append a horizontal-ellipsis character. -/
def elideText (text : String) (limit : Nat) : String :=
  if text.length ≤ limit then text
  else jsTrimEnd ⟨text.data.take (limit - 1)⟩ ++ "…"

/-- buildQueueSummaryLine from the source: the trimmed summary line when it
is nonempty, else the trimmed prompt; whitespace runs collapsed, trimmed
again, elided to 160 characters. -/
def buildQueueSummaryLine (item : AnnounceQueueItem) : String :=
  let base :=
    match item.summaryLine with
    | some s => if jsTrim s = "" then jsTrim item.prompt else jsTrim s
    | none => jsTrim item.prompt
  let cleaned := jsTrim ⟨collapseWs base.data⟩
  elideText cleaned 160

/-- The settings merge performed by getAnnounceQueue on an existing entry:
mode always overwrites; debounce overwrites when provided, clamped at zero;
cap overwrites when provided and positive, floored; drop policy overwrites
when provided. -/
def applySettings (q : AnnounceQueueState) (s : QueueSettingsIn) : AnnounceQueueState :=
  { q with
    mode := s.mode
    debounceMs := match s.debounceMs with
      | some d => (max 0 d).toNat
      | none => q.debounceMs
    cap := match s.cap with
      | some c => if 0 < c then c.toNat else q.cap
      | none => q.cap
    dropPolicy := s.dropPolicy.getD q.dropPolicy }

/-- The fresh state created by getAnnounceQueue for an unknown key. -/
def freshQueueState (s : QueueSettingsIn) : AnnounceQueueState :=
  { items := []
    draining := false
    lastEnqueuedAt := 0
    mode := s.mode
    debounceMs := match s.debounceMs with
      | some d => (max 0 d).toNat
      | none => 1000
    cap := match s.cap with
      | some c => if 0 < c then c.toNat else 20
      | none => 20
    dropPolicy := s.dropPolicy.getD .summarize
    droppedCount := 0
    summaryLines := [] }

/-- getAnnounceQueue from the source: look up or create the state for a key,
merging the supplied settings, and return the state together with the store
holding it. -/
def getAnnounceQueue (store : QueueStore) (key : String) (s : QueueSettingsIn) :
    AnnounceQueueState × QueueStore :=
  match storeFind store key with
  | some existing =>
    let merged := applySettings existing s
    (merged, storeSet store key merged)
  | none =>
    let created := freshQueueState s
    (created, storeSet store key created)

/-- The while loop that shifts the oldest summary lines until at most cap
entries remain, expressed as dropping the excess from the front. -/
def shiftWhile (l : List String) (cap : Nat) : List String := l.drop (l.length - cap)

/-- enqueueAnnounce from the source. Returns the accepted flag and the store
after the call; now is the reading of the clock taken at entry. -/
def enqueueAnnounce (store : QueueStore) (key : String) (item : AnnounceQueueItem)
    (settings : QueueSettingsIn) (now : Nat) : Bool × QueueStore :=
  let got := getAnnounceQueue store key settings
  let store1 := got.2
  let queue := { got.1 with lastEnqueuedAt := now }
  let cap := queue.cap
  if 0 < cap ∧ cap ≤ queue.items.length then
    if queue.dropPolicy = .new then (false, storeSet store1 key queue)
    else
      let dropCount := queue.items.length - cap + 1
      let dropped := queue.items.take dropCount
      let remaining := queue.items.drop dropCount
      let queue1 :=
        if queue.dropPolicy = .summarize then
          { queue with
            items := remaining
            droppedCount := queue.droppedCount + dropped.length
            summaryLines := shiftWhile (queue.summaryLines ++ dropped.map buildQueueSummaryLine) cap }
        else { queue with items := remaining }
      (true, storeSet store1 key { queue1 with items := queue1.items ++ [item] })
  else (true, storeSet store1 key { queue with items := queue.items ++ [item] })

example :
    (enqueueAnnounce [] "k"
      { prompt := "A", summaryLine := none, enqueuedAt := 0, sessionKey := "k",
        originatingChannel := none, originatingTo := none, originatingAccountId := none }
      { mode := .followup, debounceMs := some 0, cap := some 2, dropPolicy := some .summarize }
      5).1 = true := by decide

/-- waitForQueueDebounce from the source, checking the trailing quiet period:
the since value computed at one wake of the timer loop, from one reading of
the clock and of the lastEnqueuedAt field. -/
def debounceReady (debounceMs now last : Nat) : Bool := decide (debounceMs ≤ now - last)

/-- Outcome of the debounce wait: return before any check (zero debounce),
return at the check with the given index, or still waiting after the supplied
observations are exhausted. -/
inductive DebounceOutcome
  | immediate
  | atObs (i : Nat)
  | pending
  deriving DecidableEq, Repr

/-- The timer loop of waitForQueueDebounce: each list element is one reading
of the clock paired with the lastEnqueuedAt value current at that wake, and
the loop keeps sleeping until a reading satisfies the quiet period. -/
def debounceGo (debounceMs : Nat) : List (Nat × Nat) → Nat → DebounceOutcome
  | [], _ => .pending
  | (now, last) :: rest, i =>
    if debounceReady debounceMs now last then .atObs i else debounceGo debounceMs rest (i + 1)

/-- waitForQueueDebounce from the source over a trace of observations: the
stored debounce is already clamped at zero, and a zero debounce returns
before taking any observation. -/
def waitForQueueDebounce (debounceMs : Nat) (obs : List (Nat × Nat)) : DebounceOutcome :=
  if debounceMs = 0 then .immediate else debounceGo debounceMs obs 0

/-- The join method of JavaScript arrays. -/
def joinSep (sep : String) : List String → String
  | [] => ""
  | [x] => x
  | x :: y :: rest => x ++ sep ++ joinSep sep (y :: rest)

/-- The first line of the overflow notice, for a dropped count of n. -/
def overflowHeader (n : Nat) : String :=
  "[Queue overflow] Dropped " ++ toString n ++ " announce" ++
    (if n = 1 then "" else "s") ++ " due to cap."

/-- The lines of the overflow notice: the header, then, when any summary
was retained, the Summary heading and one bullet per retained line. -/
def overflowLines (q : AnnounceQueueState) : List String :=
  if 0 < q.summaryLines.length then
    [overflowHeader q.droppedCount, "Summary:"] ++
      q.summaryLines.map (fun line => "- " ++ line)
  else [overflowHeader q.droppedCount]

/-- buildSummaryPrompt from the source: under the summarize policy with a
positive dropped count, produce the overflow notice and reset the dropped
count and the summary list; otherwise produce nothing and leave the state
unchanged. -/
def buildSummaryPrompt (q : AnnounceQueueState) : Option String × AnnounceQueueState :=
  if q.dropPolicy ≠ .summarize ∨ q.droppedCount = 0 then (none, q)
  else
    (some (joinSep "\n" (overflowLines q)),
      { q with droppedCount := 0, summaryLines := [] })

/-- buildCollectPrompt from the source: marker line, the summary when it is
a nonempty string, then one trimmed block per item with its one-based index
and its prompt, joined by blank lines. -/
def buildCollectPrompt (items : List AnnounceQueueItem) (summary : Option String) : String :=
  let blocks := ["[Queued announce messages while agent was busy]"]
  let blocks :=
    match summary with
    | some s => if s = "" then blocks else blocks ++ [s]
    | none => blocks
  let blocks := blocks ++ items.enum.map
    (fun p => jsTrim ("---\nQueued #" ++ toString (p.1 + 1) ++ "\n" ++ p.2.prompt))
  joinSep "\n\n" blocks

/-- JavaScript truthiness of an optional string field: present and nonempty. -/
def truthyStr : Option String → Bool
  | none => false
  | some s => decide (s ≠ "")

/-- The Set insertion used by hasCrossChannelItems, on a duplicate-free list. -/
def insK (l : List String) (k : String) : List String := if k ∈ l then l else l ++ [k]

/-- The destination key built by hasCrossChannelItems: channel, recipient and
account id joined by vertical bars, a falsy account id replaced by the empty
string. -/
def joinKey (channel toAddr accountId : Option String) : String :=
  channel.getD "" ++ "|" ++ toAddr.getD "" ++ "|" ++ accountId.getD ""

/-- The loop of hasCrossChannelItems, carrying the key set and the flag that
an item without any destination metadata was seen. -/
def crossGo : List AnnounceQueueItem → List String → Bool → Bool
  | [], keys, hasUnkeyed =>
    if keys.length = 0 then false
    else if hasUnkeyed then true
    else decide (1 < keys.length)
  | item :: rest, keys, hasUnkeyed =>
    let channel := item.originatingChannel
    let toAddr := item.originatingTo
    let accountId := item.originatingAccountId
    if !truthyStr channel && !truthyStr toAddr && !truthyStr accountId then
      crossGo rest keys true
    else if !truthyStr channel || !truthyStr toAddr then true
    else crossGo rest (insK keys (joinKey channel toAddr accountId)) hasUnkeyed

/-- hasCrossChannelItems from the source. -/
def hasCrossChannelItems (items : List AnnounceQueueItem) : Bool :=
  crossGo items [] false

/-- Whether one delivery carried a coalesced batch (the collect branch) or a
single item (every other branch). -/
inductive DeliveryKind
  | single
  | collected
  deriving DecidableEq, Repr

/-- One call of sendAnnounce: the item handed to the transport (whose prompt
field is the delivered payload) and which branch produced it. -/
structure Delivery where
  sent : AnnounceQueueItem
  kind : DeliveryKind
  deriving DecidableEq, Repr

/-- Outcome of one iteration of the drain loop body: either one delivery with
the queue state and the sticky individual flag after it, or a break out of
the loop. -/
inductive IterResult
  | delivered (sent : AnnounceQueueItem) (kind : DeliveryKind)
      (q : AnnounceQueueState) (force : Bool)
  | exit (q : AnnounceQueueState) (force : Bool)
  deriving DecidableEq, Repr

/-- The sticky individual flag after an iteration. -/
def IterResult.forceOut : IterResult → Bool
  | .delivered _ _ _ f => f
  | .exit _ f => f

/-- One iteration of the while loop body of scheduleAnnounceDrain, after the
debounce wait; force is the forceIndividualCollect flag of the session. -/
def drainIter (q : AnnounceQueueState) (force : Bool) : IterResult :=
  if q.mode = .collect then
    if force then
      match q.items with
      | [] => .exit q force
      | next :: rest => .delivered next .single { q with items := rest } force
    else if hasCrossChannelItems q.items then
      match q.items with
      | [] => .exit q true
      | next :: rest => .delivered next .single { q with items := rest } true
    else
      let items := q.items
      let afterSplice := { q with items := [] }
      let built := buildSummaryPrompt afterSplice
      let prompt := buildCollectPrompt items built.1
      match items.getLast? with
      | none => .exit built.2 force
      | some last => .delivered { last with prompt := prompt } .collected built.2 force
  else
    let built := buildSummaryPrompt q
    match built.1 with
    | some summaryPrompt =>
      match built.2.items with
      | [] => .exit built.2 force
      | next :: rest =>
        .delivered { next with prompt := summaryPrompt } .single
          { built.2 with items := rest } force
    | none =>
      match q.items with
      | [] => .exit q force
      | next :: rest => .delivered next .single { q with items := rest } force

/-- The while loop of scheduleAnnounceDrain, with fuel; the debounce wait of
each iteration is modelled separately by waitForQueueDebounce, since the
sequential embedding has no concurrent enqueue moving lastEnqueuedAt. Returns
the deliveries in order, the final queue state and the final sticky flag, or
none when the fuel runs out. -/
def drainLoop : Nat → AnnounceQueueState → Bool →
    Option (List Delivery × AnnounceQueueState × Bool)
  | 0, _, _ => none
  | fuel + 1, q, force =>
    if 0 < q.items.length ∨ 0 < q.droppedCount then
      match drainIter q force with
      | .exit q1 f1 => some ([], q1, f1)
      | .delivered sent kind q1 f1 =>
        match drainLoop fuel q1 f1 with
        | none => none
        | some (ds, q2, f2) => some (⟨sent, kind⟩ :: ds, q2, f2)
    else some ([], q, force)

/-- scheduleAnnounceDrain from the source, with fuel: the guard on a missing
or already draining key, the loop, and the finally block that clears the
draining flag and then deletes a quiescent key or reschedules itself. The
transport always succeeds in this model. -/
def drainSession : Nat → QueueStore → String → Option (List Delivery × QueueStore)
  | 0, _, _ => none
  | fuel + 1, store, key =>
    match storeFind store key with
    | none => some ([], store)
    | some q =>
      if q.draining then some ([], store)
      else
        match drainLoop (fuel + 1) { q with draining := true } false with
        | none => none
        | some (ds, q1, _) =>
          let q2 := { q1 with draining := false }
          if q2.items.length = 0 ∧ q2.droppedCount = 0 then
            some (ds, storeErase store key)
          else
            match drainSession fuel (storeSet store key q2) key with
            | none => none
            | some (ds2, store2) => some (ds ++ ds2, store2)

example : buildQueueSummaryLine
    { prompt := "A", summaryLine := none, enqueuedAt := 0, sessionKey := "k",
      originatingChannel := none, originatingTo := none, originatingAccountId := none } = "A" := by
  decide

example :
    buildSummaryPrompt
      { items := [], draining := true, lastEnqueuedAt := 0, mode := .followup,
        debounceMs := 0, cap := 2, dropPolicy := .summarize, droppedCount := 2,
        summaryLines := ["A", "B"] } =
    (some "[Queue overflow] Dropped 2 announces due to cap.\nSummary:\n- A\n- B",
      { items := [], draining := true, lastEnqueuedAt := 0, mode := .followup,
        debounceMs := 0, cap := 2, dropPolicy := .summarize, droppedCount := 0,
        summaryLines := [] }) := by decide

/-! Helper lemmas about the store. -/

theorem storeFind_storeSet_self (store : QueueStore) (key : String) (q : AnnounceQueueState) :
    storeFind (storeSet store key q) key = some q := by
  induction store with
  | nil => simp [storeSet, storeFind]
  | cons p rest ih =>
    by_cases h : p.1 = key
    · simp [storeSet, storeFind, h]
    · simp [storeSet, storeFind, h, ih]

theorem storeFind_storeErase_self (store : QueueStore) (key : String) :
    storeFind (storeErase store key) key = none := by
  induction store with
  | nil => simp [storeErase, storeFind]
  | cons p rest ih =>
    simp only [storeErase, List.filter_cons] at ih ⊢
    by_cases h : p.1 = key
    · simp [h, ih]
    · simp [bne_iff_ne, h, storeFind, ih]

theorem storeSet_storeSet (store : QueueStore) (key : String) (q1 q2 : AnnounceQueueState) :
    storeSet (storeSet store key q1) key q2 = storeSet store key q2 := by
  induction store with
  | nil => simp [storeSet]
  | cons p rest ih =>
    by_cases h : p.1 = key
    · simp [storeSet, h]
    · simp [storeSet, h, ih]

/-! The debounce scheduler. -/

theorem debounceGo_atObs (d : Nat) :
    ∀ (obs : List (Nat × Nat)) (i0 i : Nat), debounceGo d obs i0 = .atObs i →
      i0 ≤ i ∧
      ∃ now last, obs.get? (i - i0) = some (now, last) ∧ d ≤ now - last ∧
        ∀ j, j < i - i0 → ∀ n2 l2, obs.get? j = some (n2, l2) → n2 - l2 < d := by
  intro obs
  induction obs with
  | nil => intro i0 i h; simp [debounceGo] at h
  | cons p rest ih =>
    intro i0 i h
    obtain ⟨now, last⟩ := p
    by_cases hr : debounceReady d now last
    · simp [debounceGo, hr] at h
      subst h
      refine ⟨le_refl _, now, last, ?_, ?_, ?_⟩
      · simp [Nat.sub_self]
      · simpa [debounceReady] using hr
      · intro j hj; omega
    · simp [debounceGo, hr] at h
      obtain ⟨hle, n3, l3, hget, hd, hprev⟩ := ih (i0 + 1) i h
      refine ⟨by omega, n3, l3, ?_, hd, ?_⟩
      · have : i - i0 = (i - (i0 + 1)) + 1 := by omega
        rw [this]; simpa using hget
      · intro j hj n2 l2 hget2
        match j with
        | 0 =>
          simp [List.get?] at hget2
          obtain ⟨h1, h2⟩ := hget2
          subst h1; subst h2
          simp [debounceReady] at hr
          omega
        | Nat.succ j' =>
          have hj' : j' < i - (i0 + 1) := by omega
          exact hprev j' hj' n2 l2 (by simpa using hget2)

/-- Claim C7: the debounce wait returns only at a wake where the clock
reading minus the lastEnqueuedAt value read at that wake is at least the
debounce, every earlier wake having failed the re-checked condition, and a
zero debounce returns immediately without taking any observation. -/
theorem claim_C7 (debounceMs : Nat) (obs : List (Nat × Nat)) :
    (debounceMs = 0 → waitForQueueDebounce debounceMs obs = .immediate) ∧
    (∀ i, waitForQueueDebounce debounceMs obs = .atObs i →
      ∃ now last, obs.get? i = some (now, last) ∧ debounceMs ≤ now - last ∧
        ∀ j, j < i → ∀ n2 l2, obs.get? j = some (n2, l2) → n2 - l2 < debounceMs) := by
  constructor
  · intro h; simp [waitForQueueDebounce, h]
  · intro i h
    by_cases h0 : debounceMs = 0
    · simp [waitForQueueDebounce, h0] at h
    · simp only [waitForQueueDebounce, if_neg h0] at h
      obtain ⟨-, now, last, hget, hd, hprev⟩ := debounceGo_atObs debounceMs obs 0 i h
      exact ⟨now, last, by simpa using hget, hd, by simpa using hprev⟩

/-- Witness for claim C7 at a concrete trace: with debounce five and wakes
reading three minus zero and then ten minus two, the wait returns at the
second wake, whose quiet period is satisfied. -/
theorem claim_C7_witness :
    ∃ now last, [(3, 0), (10, 2)].get? 1 = some (now, last) ∧ 5 ≤ now - last ∧
      ∀ j, j < 1 → ∀ n2 l2, [(3, 0), (10, 2)].get? j = some (n2, l2) → n2 - l2 < 5 :=
  (claim_C7 5 [(3, 0), (10, 2)]).2 1 (by decide)

/-! Case equations for enqueueAnnounce. -/

theorem applySettings_items (q : AnnounceQueueState) (s : QueueSettingsIn) :
    (applySettings q s).items = q.items := rfl

theorem applySettings_draining (q : AnnounceQueueState) (s : QueueSettingsIn) :
    (applySettings q s).draining = q.draining := rfl

theorem applySettings_droppedCount (q : AnnounceQueueState) (s : QueueSettingsIn) :
    (applySettings q s).droppedCount = q.droppedCount := rfl

theorem applySettings_summaryLines (q : AnnounceQueueState) (s : QueueSettingsIn) :
    (applySettings q s).summaryLines = q.summaryLines := rfl

theorem applySettings_lastEnqueuedAt (q : AnnounceQueueState) (s : QueueSettingsIn) :
    (applySettings q s).lastEnqueuedAt = q.lastEnqueuedAt := rfl

theorem applySettings_mode (q : AnnounceQueueState) (s : QueueSettingsIn) :
    (applySettings q s).mode = s.mode := rfl

theorem enqueue_reject (store : QueueStore) (key : String) (q : AnnounceQueueState)
    (item : AnnounceQueueItem) (s : QueueSettingsIn) (now : Nat)
    (hfind : storeFind store key = some q)
    (hcap : 0 < (applySettings q s).cap)
    (hfull : (applySettings q s).cap ≤ q.items.length)
    (hpol : (applySettings q s).dropPolicy = QueueDropPolicy.new) :
    enqueueAnnounce store key item s now =
      (false, storeSet store key { applySettings q s with lastEnqueuedAt := now }) := by
  simp only [enqueueAnnounce, getAnnounceQueue, hfind]
  rw [if_pos ⟨hcap, hfull⟩, if_pos hpol, storeSet_storeSet]

theorem enqueue_under_cap (store : QueueStore) (key : String) (q : AnnounceQueueState)
    (item : AnnounceQueueItem) (s : QueueSettingsIn) (now : Nat)
    (hfind : storeFind store key = some q)
    (hroom : ¬(0 < (applySettings q s).cap ∧ (applySettings q s).cap ≤ q.items.length)) :
    enqueueAnnounce store key item s now =
      (true, storeSet store key
        { applySettings q s with lastEnqueuedAt := now, items := q.items ++ [item] }) := by
  simp only [enqueueAnnounce, getAnnounceQueue, hfind]
  rw [if_neg (by rw [applySettings_items]; exact hroom), storeSet_storeSet]
  simp [applySettings_items]

theorem enqueue_evict (store : QueueStore) (key : String) (q : AnnounceQueueState)
    (item : AnnounceQueueItem) (s : QueueSettingsIn) (now : Nat)
    (hfind : storeFind store key = some q)
    (hcap : 0 < (applySettings q s).cap)
    (hfull : (applySettings q s).cap ≤ q.items.length)
    (hpol : (applySettings q s).dropPolicy = QueueDropPolicy.summarize) :
    enqueueAnnounce store key item s now =
      (true, storeSet store key
        { applySettings q s with
            lastEnqueuedAt := now
            items := q.items.drop (q.items.length - (applySettings q s).cap + 1) ++ [item]
            droppedCount := (applySettings q s).droppedCount +
              (q.items.take (q.items.length - (applySettings q s).cap + 1)).length
            summaryLines := shiftWhile
              ((applySettings q s).summaryLines ++
                (q.items.take (q.items.length - (applySettings q s).cap + 1)).map
                  buildQueueSummaryLine)
              (applySettings q s).cap }) := by
  simp only [enqueueAnnounce, getAnnounceQueue, hfind]
  rw [if_pos ⟨hcap, hfull⟩, if_neg (by simp [hpol]), if_pos hpol, storeSet_storeSet]
  simp [applySettings_items]

theorem enqueue_fresh (store : QueueStore) (key : String)
    (item : AnnounceQueueItem) (s : QueueSettingsIn) (now : Nat)
    (hfind : storeFind store key = none) :
    enqueueAnnounce store key item s now =
      (true, storeSet store key
        { freshQueueState s with lastEnqueuedAt := now, items := [item] }) := by
  simp only [enqueueAnnounce, getAnnounceQueue, hfind]
  rw [if_neg (by rintro ⟨h1, h2⟩; simp [freshQueueState] at h1 h2; omega), storeSet_storeSet]
  simp [freshQueueState]

/-- Shape of every enqueue on an existing key: the key maps afterwards to a
state with the same draining flag, a dropped count that never decreased and a
nonempty item sequence; an accepted item sits at the tail, and a rejected
call leaves the sequence untouched. -/
theorem enqueue_existing_shape (store : QueueStore) (key : String) (q : AnnounceQueueState)
    (item : AnnounceQueueItem) (s : QueueSettingsIn) (now : Nat)
    (hfind : storeFind store key = some q) :
    ∃ q2, storeFind (enqueueAnnounce store key item s now).2 key = some q2 ∧
      q2.draining = q.draining ∧
      q.droppedCount ≤ q2.droppedCount ∧
      q2.items ≠ [] ∧
      ((enqueueAnnounce store key item s now).1 = true → q2.items.getLast? = some item) ∧
      ((enqueueAnnounce store key item s now).1 = false → q2.items = q.items) := by
  by_cases hc : 0 < (applySettings q s).cap ∧ (applySettings q s).cap ≤ q.items.length
  · cases hpol : (applySettings q s).dropPolicy with
    | new =>
      rw [enqueue_reject store key q item s now hfind hc.1 hc.2 hpol]
      refine ⟨_, storeFind_storeSet_self _ _ _, ?_, ?_, ?_, ?_, ?_⟩
      · simp [applySettings_draining]
      · simp [applySettings_droppedCount]
      · simp only [applySettings_items]
        intro hnil
        rw [hnil] at hc
        simp at hc
        omega
      · intro h; simp at h
      · intro _; simp [applySettings_items]
    | summarize =>
      rw [enqueue_evict store key q item s now hfind hc.1 hc.2 hpol]
      refine ⟨_, storeFind_storeSet_self _ _ _, ?_, ?_, ?_, ?_, ?_⟩
      · simp [applySettings_draining]
      · simp [applySettings_droppedCount]
      · simp
      · intro _; simp [List.getLast?_concat]
      · intro h; simp at h
  · rw [enqueue_under_cap store key q item s now hfind hc]
    refine ⟨_, storeFind_storeSet_self _ _ _, ?_, ?_, ?_, ?_, ?_⟩
    · simp [applySettings_draining]
    · simp [applySettings_droppedCount]
    · simp
    · intro _; simp [List.getLast?_concat]
    · intro h; simp at h

/-- A base item with the given prompt and no origin metadata. -/
def mkItem (p : String) : AnnounceQueueItem :=
  { prompt := p, summaryLine := none, enqueuedAt := 0, sessionKey := "main",
    originatingChannel := none, originatingTo := none, originatingAccountId := none }

/-- Claim C9: the drain scheduler is a no-op for a key that is absent from
the store or whose draining flag is already set, so at most one drain runs
per key; an enqueue on a key that is draining keeps the flag set, spawns
nothing, and only extends the item sequence the running drain observes, the
accepted item sitting at the tail. -/
theorem claim_C9 :
    (∀ (fuel : Nat) (store : QueueStore) (key : String),
      storeFind store key = none → drainSession (fuel + 1) store key = some ([], store)) ∧
    (∀ (fuel : Nat) (store : QueueStore) (key : String) (q : AnnounceQueueState),
      storeFind store key = some q → q.draining = true →
      drainSession (fuel + 1) store key = some ([], store)) ∧
    (∀ (store : QueueStore) (key : String) (q : AnnounceQueueState)
      (item : AnnounceQueueItem) (s : QueueSettingsIn) (now : Nat),
      storeFind store key = some q → q.draining = true →
      ∃ q2, storeFind (enqueueAnnounce store key item s now).2 key = some q2 ∧
        q2.draining = true ∧
        ((enqueueAnnounce store key item s now).1 = true →
          q2.items.getLast? = some item)) := by
  refine ⟨?_, ?_, ?_⟩
  · intro fuel store key h
    simp [drainSession, h]
  · intro fuel store key q h hdr
    simp [drainSession, h, hdr]
  · intro store key q item s now h hdr
    obtain ⟨q2, hfind2, hdr2, -, -, hlast, -⟩ :=
      enqueue_existing_shape store key q item s now h
    exact ⟨q2, hfind2, by rw [hdr2, hdr], hlast⟩

/-- Witness for claim C9: a store whose only key is draining is left exactly
as it is by the scheduler. -/
theorem claim_C9_witness :
    drainSession 1
      [("k", { items := [mkItem "X"], draining := true, lastEnqueuedAt := 0,
               mode := QueueMode.followup, debounceMs := 0, cap := 20,
               dropPolicy := QueueDropPolicy.summarize, droppedCount := 0,
               summaryLines := [] })] "k" =
    some ([],
      [("k", { items := [mkItem "X"], draining := true, lastEnqueuedAt := 0,
               mode := QueueMode.followup, debounceMs := 0, cap := 20,
               dropPolicy := QueueDropPolicy.summarize, droppedCount := 0,
               summaryLines := [] })]) :=
  claim_C9.2.1 0 _ "k"
    { items := [mkItem "X"], draining := true, lastEnqueuedAt := 0,
      mode := QueueMode.followup, debounceMs := 0, cap := 20,
      dropPolicy := QueueDropPolicy.summarize, droppedCount := 0,
      summaryLines := [] } (by decide) (by decide)

/-- Claim C10: an enqueue rejected at capacity under the reject-new policy
has nonetheless overwritten the stored settings (mode always; debounce,
capacity and drop policy when validly provided) and set lastEnqueuedAt to
the current time before returning false, leaving the item sequence alone,
so the quiet-period check of a waiting drain fails at any clock reading
earlier than that time plus the debounce. -/
theorem claim_C10 (store : QueueStore) (key : String) (q : AnnounceQueueState)
    (item : AnnounceQueueItem) (s : QueueSettingsIn) (now : Nat)
    (hfind : storeFind store key = some q)
    (hcap : 0 < (applySettings q s).cap)
    (hfull : (applySettings q s).cap ≤ q.items.length)
    (hpol : (applySettings q s).dropPolicy = QueueDropPolicy.new) :
    (enqueueAnnounce store key item s now).1 = false ∧
    ∃ q2, storeFind (enqueueAnnounce store key item s now).2 key = some q2 ∧
      q2.items = q.items ∧
      q2.lastEnqueuedAt = now ∧
      q2.mode = s.mode ∧
      (∀ d, s.debounceMs = some d → q2.debounceMs = (max 0 d).toNat) ∧
      (s.debounceMs = none → q2.debounceMs = q.debounceMs) ∧
      (∀ c, s.cap = some c → 0 < c → q2.cap = c.toNat) ∧
      (s.cap = none → q2.cap = q.cap) ∧
      (∀ p, s.dropPolicy = some p → q2.dropPolicy = p) ∧
      (s.dropPolicy = none → q2.dropPolicy = q.dropPolicy) ∧
      (∀ t, 0 < q2.debounceMs → t < now + q2.debounceMs →
        debounceReady q2.debounceMs t now = false) := by
  rw [enqueue_reject store key q item s now hfind hcap hfull hpol]
  refine ⟨rfl, _, storeFind_storeSet_self _ _ _, ?_, rfl, rfl, ?_, ?_, ?_, ?_, ?_, ?_, ?_⟩
  · simp [applySettings_items]
  · intro d hd; simp [applySettings, hd]
  · intro hd; simp [applySettings, hd]
  · intro c hc hpos; simp [applySettings, hc, hpos]
  · intro hc; simp [applySettings, hc]
  · intro p hp; simp [applySettings, hp]
  · intro hp; simp [applySettings, hp]
  · intro t hpos ht
    simp only [debounceReady, decide_eq_false_iff_not]
    simp only [applySettings] at hpos ht ⊢
    omega

/-- Witness for claim C10 at a concrete full queue: the rejected enqueue
still rewrites the settings and the trailing-debounce clock. -/
theorem claim_C10_witness :
    ((enqueueAnnounce
        [("k", { items := [mkItem "X"], draining := false, lastEnqueuedAt := 7,
                 mode := QueueMode.followup, debounceMs := 5, cap := 1,
                 dropPolicy := QueueDropPolicy.new, droppedCount := 0,
                 summaryLines := [] })] "k" (mkItem "Y")
        { mode := QueueMode.collect, debounceMs := some 3, cap := some 1,
          dropPolicy := some QueueDropPolicy.new } 42).1 = false) ∧
    ∃ q2, storeFind
        ((enqueueAnnounce
          [("k", { items := [mkItem "X"], draining := false, lastEnqueuedAt := 7,
                   mode := QueueMode.followup, debounceMs := 5, cap := 1,
                   dropPolicy := QueueDropPolicy.new, droppedCount := 0,
                   summaryLines := [] })] "k" (mkItem "Y")
          { mode := QueueMode.collect, debounceMs := some 3, cap := some 1,
            dropPolicy := some QueueDropPolicy.new } 42).2) "k" = some q2 ∧
      q2.items = [mkItem "X"] ∧
      q2.lastEnqueuedAt = 42 ∧
      q2.mode = QueueMode.collect ∧
      (∀ d, (some (3 : Int)) = some d → q2.debounceMs = (max 0 d).toNat) ∧
      ((some (3 : Int)) = none → q2.debounceMs = 5) ∧
      (∀ c, (some (1 : Int)) = some c → 0 < c → q2.cap = c.toNat) ∧
      ((some (1 : Int)) = none → q2.cap = 1) ∧
      (∀ p, (some QueueDropPolicy.new) = some p → q2.dropPolicy = p) ∧
      ((some QueueDropPolicy.new) = none → q2.dropPolicy = QueueDropPolicy.new) ∧
      (∀ t, 0 < q2.debounceMs → t < 42 + q2.debounceMs →
        debounceReady q2.debounceMs t 42 = false) := by
  have h := claim_C10
    [("k", { items := [mkItem "X"], draining := false, lastEnqueuedAt := 7,
             mode := QueueMode.followup, debounceMs := 5, cap := 1,
             dropPolicy := QueueDropPolicy.new, droppedCount := 0,
             summaryLines := [] })] "k"
    { items := [mkItem "X"], draining := false, lastEnqueuedAt := 7,
      mode := QueueMode.followup, debounceMs := 5, cap := 1,
      dropPolicy := QueueDropPolicy.new, droppedCount := 0, summaryLines := [] }
    (mkItem "Y")
    { mode := QueueMode.collect, debounceMs := some 3, cap := some 1,
      dropPolicy := some QueueDropPolicy.new } 42
    (by decide) (by decide) (by decide) (by decide)
  exact h

/-- A sequence of enqueue calls for one key with fixed settings, all at
clock reading zero, collecting the returned accepted flags. -/
def enqueueSeq (store : QueueStore) (key : String) (s : QueueSettingsIn) :
    List AnnounceQueueItem → List Bool × QueueStore
  | [] => ([], store)
  | x :: rest =>
    let r := enqueueAnnounce store key x s 0
    let r2 := enqueueSeq r.2 key s rest
    (r.1 :: r2.1, r2.2)

theorem applySettings_cap_of_pos (q : AnnounceQueueState) (s : QueueSettingsIn) (c : Int)
    (hcap : s.cap = some c) (hc : 0 < c) : (applySettings q s).cap = c.toNat := by
  simp [applySettings, hcap, hc]

/-- Filling a queue below capacity with settings that pin a positive cap:
every enqueue is accepted and the items append in order. -/
theorem enqueueSeq_fill (key : String) (s : QueueSettingsIn) (c : Int)
    (hcap : s.cap = some c) (hc : 0 < c) :
    ∀ (xs : List AnnounceQueueItem) (store : QueueStore) (q : AnnounceQueueState),
      storeFind store key = some q →
      q.items.length + xs.length ≤ c.toNat →
      (enqueueSeq store key s xs).1 = List.replicate xs.length true ∧
      ∃ q1, storeFind (enqueueSeq store key s xs).2 key = some q1 ∧
        q1.items = q.items ++ xs := by
  intro xs
  induction xs with
  | nil =>
    intro store q hfind hlen
    exact ⟨rfl, q, hfind, by simp⟩
  | cons x rest ih =>
    intro store q hfind hlen
    have hcap' : (applySettings q s).cap = c.toNat := applySettings_cap_of_pos q s c hcap hc
    have hstep := enqueue_under_cap store key q x s 0 hfind (by
      rw [hcap']
      simp at hlen
      rintro ⟨-, h2⟩
      omega)
    have hfind2 : storeFind (enqueueAnnounce store key x s 0).2 key =
        some { applySettings q s with lastEnqueuedAt := 0, items := q.items ++ [x] } := by
      rw [hstep]; exact storeFind_storeSet_self _ _ _
    obtain ⟨hflags, q1, hfind1, hitems1⟩ :=
      ih (enqueueAnnounce store key x s 0).2 _ hfind2 (by simp at hlen ⊢; omega)
    refine ⟨?_, q1, ?_, ?_⟩
    · simp only [enqueueSeq, hflags, List.replicate_succ, List.length_cons]
      rw [hstep]
    · simpa [enqueueSeq] using hfind1
    · simpa using hitems1

/-- Claim C4: with capacity N and the reject-new policy, N enqueues on a
fresh key are all accepted and leave the N items in order; the next enqueue
returns false and the item sequence keeps the same length, items and order. -/
theorem claim_C4 (N : Nat) (hN : 0 < N) (key : String) (s : QueueSettingsIn)
    (hcap : s.cap = some (N : Int)) (hpol : s.dropPolicy = some QueueDropPolicy.new)
    (xs : List AnnounceQueueItem) (hlen : xs.length = N) (extra : AnnounceQueueItem) :
    (enqueueSeq [] key s xs).1 = List.replicate N true ∧
    ∃ q1, storeFind (enqueueSeq [] key s xs).2 key = some q1 ∧ q1.items = xs ∧
      (enqueueAnnounce (enqueueSeq [] key s xs).2 key extra s 0).1 = false ∧
      ∃ q2, storeFind (enqueueAnnounce (enqueueSeq [] key s xs).2 key extra s 0).2 key =
          some q2 ∧ q2.items = xs := by
  cases xs with
  | nil => rw [List.length_nil] at hlen; omega
  | cons x0 rest =>
    have hNZ : (0 : Int) < (N : Int) := by exact_mod_cast hN
    have hfresh := enqueue_fresh [] key x0 s 0 rfl
    have hfind0 : storeFind (enqueueAnnounce [] key x0 s 0).2 key =
        some { freshQueueState s with lastEnqueuedAt := 0, items := [x0] } := by
      rw [hfresh]; exact storeFind_storeSet_self _ _ _
    simp only [List.length_cons] at hlen
    obtain ⟨hflags, q1, hfind1, hitems1⟩ :=
      enqueueSeq_fill key s (N : Int) hcap hNZ rest (enqueueAnnounce [] key x0 s 0).2 _
        hfind0 (by simp; omega)
    have hitems1' : q1.items = x0 :: rest := by simpa using hitems1
    have hcapQ : (applySettings q1 s).cap = N := by
      rw [applySettings_cap_of_pos q1 s (N : Int) hcap hNZ]; simp
    have hpolQ : (applySettings q1 s).dropPolicy = QueueDropPolicy.new := by
      simp [applySettings, hpol]
    have hfullQ : (applySettings q1 s).cap ≤ q1.items.length := by
      rw [hcapQ, hitems1']
      simp
      omega
    have hrej := enqueue_reject _ key q1 extra s 0 hfind1 (by rw [hcapQ]; exact hN)
      hfullQ hpolQ
    refine ⟨?_, q1, ?_, hitems1', ?_, ?_⟩
    · simp only [enqueueSeq]
      rw [hflags, hfresh, ← hlen]
      simp [List.replicate_succ]
    · simpa [enqueueSeq] using hfind1
    · have : (enqueueSeq [] key s (x0 :: rest)).2 = (enqueueSeq (enqueueAnnounce [] key x0 s 0).2 key s rest).2 := by
        simp [enqueueSeq]
      rw [this, hrej]
    · have : (enqueueSeq [] key s (x0 :: rest)).2 = (enqueueSeq (enqueueAnnounce [] key x0 s 0).2 key s rest).2 := by
        simp [enqueueSeq]
      rw [this, hrej]
      exact ⟨_, storeFind_storeSet_self _ _ _, hitems1'⟩

/-- Witness for claim C4 at capacity two: two accepted enqueues, then a
rejection that leaves the two queued items in place. -/
theorem claim_C4_witness :
    (enqueueSeq [] "k"
      { mode := QueueMode.followup, debounceMs := some 0, cap := some 2,
        dropPolicy := some QueueDropPolicy.new } [mkItem "A", mkItem "B"]).1 =
      List.replicate 2 true ∧
    ∃ q1, storeFind (enqueueSeq [] "k"
        { mode := QueueMode.followup, debounceMs := some 0, cap := some 2,
          dropPolicy := some QueueDropPolicy.new } [mkItem "A", mkItem "B"]).2 "k" = some q1 ∧
      q1.items = [mkItem "A", mkItem "B"] ∧
      (enqueueAnnounce (enqueueSeq [] "k"
          { mode := QueueMode.followup, debounceMs := some 0, cap := some 2,
            dropPolicy := some QueueDropPolicy.new } [mkItem "A", mkItem "B"]).2 "k"
          (mkItem "C")
          { mode := QueueMode.followup, debounceMs := some 0, cap := some 2,
            dropPolicy := some QueueDropPolicy.new } 0).1 = false ∧
      ∃ q2, storeFind (enqueueAnnounce (enqueueSeq [] "k"
          { mode := QueueMode.followup, debounceMs := some 0, cap := some 2,
            dropPolicy := some QueueDropPolicy.new } [mkItem "A", mkItem "B"]).2 "k"
          (mkItem "C")
          { mode := QueueMode.followup, debounceMs := some 0, cap := some 2,
            dropPolicy := some QueueDropPolicy.new } 0).2 "k" = some q2 ∧
        q2.items = [mkItem "A", mkItem "B"] :=
  claim_C4 2 (by decide) "k"
    { mode := QueueMode.followup, debounceMs := some 0, cap := some 2,
      dropPolicy := some QueueDropPolicy.new } rfl rfl
    [mkItem "A", mkItem "B"] rfl (mkItem "C")

theorem buildSummaryPrompt_pos (q : AnnounceQueueState)
    (hpol : q.dropPolicy = QueueDropPolicy.summarize) (hdrop : 0 < q.droppedCount) :
    buildSummaryPrompt q =
      (some (joinSep "\n" (overflowLines q)),
        { q with droppedCount := 0, summaryLines := [] }) := by
  rw [buildSummaryPrompt, if_neg]
  push_neg
  exact ⟨by simp [hpol], by omega⟩

theorem buildSummaryPrompt_neg (q : AnnounceQueueState)
    (h : q.dropPolicy ≠ QueueDropPolicy.summarize ∨ q.droppedCount = 0) :
    buildSummaryPrompt q = (none, q) := by
  rw [buildSummaryPrompt, if_pos h]

/-- Queue state of the counterexample to claim C1: individual mode, one
pending item, one dropped item awaiting its overflow notice. -/
def c1Queue : AnnounceQueueState :=
  { items := [mkItem "payload A"], draining := true, lastEnqueuedAt := 0,
    mode := QueueMode.followup, debounceMs := 0, cap := 2,
    dropPolicy := QueueDropPolicy.summarize, droppedCount := 1,
    summaryLines := ["old"] }

/-- Counterexample to claim C1 as stated: with dropped-count one and the
single item still pending, the delivery step sends the overflow notice, but
not as a standalone delivery — it pops the pending item and substitutes the
notice for that item's payload, so the item is no longer in the sequence
afterwards and its own payload was never delivered. -/
theorem claim_C1_counterexample :
    drainIter c1Queue false =
      .delivered
        { mkItem "payload A" with
            prompt := "[Queue overflow] Dropped 1 announce due to cap.\nSummary:\n- old" }
        .single { c1Queue with items := [], droppedCount := 0, summaryLines := [] } false ∧
    "[Queue overflow] Dropped 1 announce due to cap.\nSummary:\n- old" ≠
      (mkItem "payload A").prompt ∧
    mkItem "payload A" ∉
      ({ c1Queue with items := [], droppedCount := 0, summaryLines := [] }
        : AnnounceQueueState).items := by
  refine ⟨?_, by decide, by decide⟩
  decide

/-- Claim C1 as amended: in a non-collect delivery step under the summarize
policy with dropped-count positive and an item pending, the drain pops the
oldest item and delivers the overflow notice in place of that item's payload,
using its metadata, resetting the drop debt; with dropped-count zero it pops
exactly one item (oldest first) and delivers its payload verbatim; in a
sticky-individual collect step it pops one item and delivers it verbatim
with no overflow notice. -/
theorem claim_C1 (q : AnnounceQueueState) (x : AnnounceQueueItem)
    (rest : List AnnounceQueueItem) :
    (q.mode ≠ QueueMode.collect → q.dropPolicy = QueueDropPolicy.summarize →
      0 < q.droppedCount → q.items = x :: rest →
      ∃ notice, (buildSummaryPrompt q).1 = some notice ∧
        drainIter q false = .delivered { x with prompt := notice } .single
          { q with items := rest, droppedCount := 0, summaryLines := [] } false) ∧
    (q.mode ≠ QueueMode.collect → q.droppedCount = 0 → q.items = x :: rest →
      drainIter q false = .delivered x .single { q with items := rest } false) ∧
    (q.mode = QueueMode.collect → q.items = x :: rest →
      drainIter q true = .delivered x .single { q with items := rest } true) := by
  refine ⟨?_, ?_, ?_⟩
  · intro hmode hpol hdrop hitems
    refine ⟨joinSep "\n" (overflowLines q), ?_, ?_⟩
    · rw [buildSummaryPrompt_pos q hpol hdrop]
    · simp only [drainIter, if_neg hmode, buildSummaryPrompt_pos q hpol hdrop]
      simp [hitems]
  · intro hmode hdrop hitems
    simp only [drainIter, if_neg hmode, buildSummaryPrompt_neg q (Or.inr hdrop)]
    simp [hitems]
  · intro hmode hitems
    simp only [drainIter, if_pos hmode, if_pos rfl]
    simp [hitems]

/-- Witness for the amended claim C1 at the counterexample queue: the notice
consumes the pending item, and a fresh debt-free queue delivers verbatim. -/
theorem claim_C1_witness :
    (∃ notice, (buildSummaryPrompt c1Queue).1 = some notice ∧
      drainIter c1Queue false = .delivered { mkItem "payload A" with prompt := notice } .single
        { c1Queue with items := [], droppedCount := 0, summaryLines := [] } false) ∧
    drainIter { c1Queue with droppedCount := 0 } false =
      .delivered (mkItem "payload A") .single
        { c1Queue with items := [], droppedCount := 0 } false := by
  constructor
  · exact (claim_C1 c1Queue (mkItem "payload A") []).1 (by decide) (by decide) (by decide)
      (by decide)
  · exact (claim_C1 { c1Queue with droppedCount := 0 } (mkItem "payload A") []).2.1
      (by decide) (by decide) (by decide)

/-- Settings of the capacity-two evict-and-summarize scenario. -/
def c5Settings : QueueSettingsIn :=
  { mode := QueueMode.followup, debounceMs := some 0, cap := some 2,
    dropPolicy := some QueueDropPolicy.summarize }

/-- Store after enqueueing A, B, C, D on a fresh key with capacity two. -/
def c5Store : QueueStore :=
  (enqueueSeq [] "k" c5Settings [mkItem "A", mkItem "B", mkItem "C", mkItem "D"]).2

/-- Queue state reached by the scenario of claim C5. -/
def c5State : AnnounceQueueState :=
  { items := [mkItem "C", mkItem "D"], draining := false, lastEnqueuedAt := 0,
    mode := QueueMode.followup, debounceMs := 0, cap := 2,
    dropPolicy := QueueDropPolicy.summarize, droppedCount := 2,
    summaryLines := ["A", "B"] }

/-- Claim C5: with capacity two and the evict-and-summarize policy, the four
enqueues A, B, C, D leave the sequence as C, D with dropped-count two and
retained summaries for A and B in that order; no enqueue ever lowers the
dropped-count, and the count reaches zero exactly at the next drain delivery,
which emits the overflow notice with its header line, the Summary heading and
the bullets for A then B (oldest first), after which the summary list is
cleared. -/
theorem claim_C5 :
    (enqueueSeq [] "k" c5Settings [mkItem "A", mkItem "B", mkItem "C", mkItem "D"]).1 =
      [true, true, true, true] ∧
    storeFind c5Store "k" = some c5State ∧
    c5State.items = [mkItem "C", mkItem "D"] ∧
    c5State.droppedCount = 2 ∧
    c5State.summaryLines =
      [buildQueueSummaryLine (mkItem "A"), buildQueueSummaryLine (mkItem "B")] ∧
    (∀ (store : QueueStore) (key : String) (item : AnnounceQueueItem)
      (s : QueueSettingsIn) (now : Nat) (q q2 : AnnounceQueueState),
      storeFind store key = some q →
      storeFind (enqueueAnnounce store key item s now).2 key = some q2 →
      q.droppedCount ≤ q2.droppedCount) ∧
    drainIter c5State false =
      .delivered
        { mkItem "C" with
            prompt := "[Queue overflow] Dropped 2 announces due to cap.\nSummary:\n- A\n- B" }
        .single { c5State with items := [mkItem "D"], droppedCount := 0, summaryLines := [] }
        false ∧
    drainSession 5 c5Store "k" =
      some ([{ sent := { mkItem "C" with
                  prompt :=
                    "[Queue overflow] Dropped 2 announces due to cap.\nSummary:\n- A\n- B" },
               kind := DeliveryKind.single },
             { sent := mkItem "D", kind := DeliveryKind.single }], []) := by
  refine ⟨by decide, by decide, by decide, by decide, by decide, ?_, by decide, by decide⟩
  intro store key item s now q q2 hfind hfind2
  obtain ⟨q2x, hfind2x, -, hmono, -, -, -⟩ := enqueue_existing_shape store key q item s now hfind
  rw [hfind2x] at hfind2
  injection hfind2 with h
  rw [← h]
  exact hmono

/-- Witness for claim C5's general conjunct: an enqueue on the scenario
store does not lower the dropped-count. -/
theorem claim_C5_witness :
    ({ items := [mkItem "C", mkItem "D"], draining := false, lastEnqueuedAt := 0,
       mode := QueueMode.followup, debounceMs := 0, cap := 2,
       dropPolicy := QueueDropPolicy.summarize, droppedCount := 2,
       summaryLines := ["A", "B"] } : AnnounceQueueState).droppedCount ≤
      ({ items := [mkItem "D", mkItem "E"], draining := false, lastEnqueuedAt := 9,
         mode := QueueMode.followup, debounceMs := 0, cap := 2,
         dropPolicy := QueueDropPolicy.summarize, droppedCount := 3,
         summaryLines := ["B", "C"] } : AnnounceQueueState).droppedCount := by
  refine claim_C5.2.2.2.2.2.1 c5Store "k" (mkItem "E") c5Settings 9 c5State _ (by decide) ?_
  decide

/-- A completed drain session started on a non-draining key always ends by
removing that key from the store: with a success-only transport, the session
reschedules itself until the sequence is empty and the dropped count is
zero, and at that instant deletes the entry. -/
theorem drainSession_removes (key : String) :
    ∀ (fuel : Nat) (store : QueueStore) (q : AnnounceQueueState) (ds : List Delivery)
      (st2 : QueueStore), storeFind store key = some q → q.draining = false →
      drainSession fuel store key = some (ds, st2) → storeFind st2 key = none := by
  intro fuel
  induction fuel with
  | zero =>
    intro store q ds st2 hfind hdr h
    simp [drainSession] at h
  | succ fuel ih =>
    intro store q ds st2 hfind hdr h
    rw [drainSession] at h
    rw [hfind] at h
    simp only [hdr] at h
    rw [if_neg (by simp)] at h
    cases hloop : drainLoop (fuel + 1) { q with draining := true } false with
    | none => rw [hloop] at h; simp at h
    | some r =>
      obtain ⟨ds1, q1, f1⟩ := r
      rw [hloop] at h
      simp only at h
      split at h
      · simp only [Option.some.injEq, Prod.mk.injEq] at h
        obtain ⟨h2, h3⟩ := h
        rw [← h3]
        exact storeFind_storeErase_self store key
      · cases hrec : drainSession fuel (storeSet store key { q1 with draining := false }) key with
        | none => rw [hrec] at h; simp at h
        | some r2 =>
          obtain ⟨ds2, store2⟩ := r2
          rw [hrec] at h
          simp only [Option.some.injEq, Prod.mk.injEq] at h
          obtain ⟨h2, h3⟩ := h
          rw [← h3]
          exact ih (storeSet store key { q1 with draining := false })
            { q1 with draining := false } ds2 store2
            (storeFind_storeSet_self store key _) rfl hrec

/-- Claim C8: when a drain session completes, the key has been removed from
the store at the instant its sequence emptied with zero dropped-count, so
the store never retains an empty debt-free entry: a lookup with creation on
a missing key builds a fresh state with an empty sequence, zero
dropped-count, cleared flags and freshly initialized settings, and every
enqueue leaves its key holding a nonempty sequence. -/
theorem claim_C8 :
    (∀ (fuel : Nat) (store : QueueStore) (key : String) (q : AnnounceQueueState)
      (ds : List Delivery) (st2 : QueueStore),
      storeFind store key = some q → q.draining = false →
      drainSession fuel store key = some (ds, st2) → storeFind st2 key = none) ∧
    (∀ (store : QueueStore) (key : String) (s : QueueSettingsIn),
      storeFind store key = none →
      (getAnnounceQueue store key s).1.items = [] ∧
      (getAnnounceQueue store key s).1.droppedCount = 0 ∧
      (getAnnounceQueue store key s).1.draining = false ∧
      (getAnnounceQueue store key s).1.lastEnqueuedAt = 0 ∧
      (getAnnounceQueue store key s).1.summaryLines = [] ∧
      (getAnnounceQueue store key s).1.mode = s.mode ∧
      (∀ d, s.debounceMs = some d →
        (getAnnounceQueue store key s).1.debounceMs = (max 0 d).toNat) ∧
      (s.debounceMs = none → (getAnnounceQueue store key s).1.debounceMs = 1000) ∧
      (∀ c, s.cap = some c → 0 < c → (getAnnounceQueue store key s).1.cap = c.toNat) ∧
      (s.cap = none → (getAnnounceQueue store key s).1.cap = 20) ∧
      (getAnnounceQueue store key s).1.dropPolicy =
        s.dropPolicy.getD QueueDropPolicy.summarize) ∧
    (∀ (store : QueueStore) (key : String) (item : AnnounceQueueItem)
      (s : QueueSettingsIn) (now : Nat),
      ∃ q2, storeFind (enqueueAnnounce store key item s now).2 key = some q2 ∧
        q2.items ≠ []) := by
  refine ⟨fun fuel store key => drainSession_removes key fuel store, ?_, ?_⟩
  · intro store key s hfind
    simp only [getAnnounceQueue, hfind]
    refine ⟨rfl, rfl, rfl, rfl, rfl, rfl, ?_, ?_, ?_, ?_, rfl⟩
    · intro d hd; simp [freshQueueState, hd]
    · intro hd; simp [freshQueueState, hd]
    · intro c hc hpos; simp [freshQueueState, hc, hpos]
    · intro hc; simp [freshQueueState, hc]
  · intro store key item s now
    cases hfind : storeFind store key with
    | none =>
      rw [enqueue_fresh store key item s now hfind]
      exact ⟨_, storeFind_storeSet_self _ _ _, by simp⟩
    | some q =>
      obtain ⟨q2, hfind2, -, -, hne, -, -⟩ := enqueue_existing_shape store key q item s now hfind
      exact ⟨q2, hfind2, hne⟩

/-- Witness for claim C8: the drain of the capacity-two scenario ends with
the key absent from the store. -/
theorem claim_C8_witness : storeFind ([] : QueueStore) "k" = none :=
  claim_C8.1 5 c5Store "k" c5State
    [{ sent := { mkItem "C" with
          prompt := "[Queue overflow] Dropped 2 announces due to cap.\nSummary:\n- A\n- B" },
       kind := DeliveryKind.single },
     { sent := mkItem "D", kind := DeliveryKind.single }] []
    (by decide) (by decide) (by decide)

theorem overflowHeader_ne_empty (n : Nat) : overflowHeader n ≠ "" := by
  intro h
  have h2 := congrArg String.data h
  rw [overflowHeader] at h2
  simp [String.data_append] at h2

theorem notice_ne_empty (q : AnnounceQueueState) :
    joinSep "\n" (overflowLines q) ≠ "" := by
  rw [overflowLines]
  by_cases h : 0 < q.summaryLines.length
  · rw [if_pos h]
    cases hs : q.summaryLines.map (fun line => "- " ++ line) with
    | nil =>
      rw [List.map_eq_nil_iff] at hs
      rw [hs] at h
      simp at h
    | cons y t =>
      simp only [List.cons_append, List.nil_append, joinSep]
      intro hemp
      have h2 := congrArg String.data hemp
      simp only [String.data_append, List.append_eq_nil] at h2
      exact absurd (overflowHeader_ne_empty q.droppedCount)
        (by intro hne; exact hne (String.ext h2.1.1))
  · rw [if_neg h]
    simp only [joinSep]
    exact overflowHeader_ne_empty q.droppedCount

theorem overflowLines_set_items (q : AnnounceQueueState) (l : List AnnounceQueueItem) :
    overflowLines { q with items := l } = overflowLines q := rfl

theorem drainIter_collect (q : AnnounceQueueState)
    (hmode : q.mode = QueueMode.collect)
    (hcross : hasCrossChannelItems q.items = false) :
    drainIter q false =
      match q.items.getLast? with
      | none => .exit (buildSummaryPrompt { q with items := [] }).2 false
      | some last => .delivered
          { last with prompt := (buildCollectPrompt q.items
              (buildSummaryPrompt { q with items := [] }).1) }
          .collected (buildSummaryPrompt { q with items := [] }).2 false := by
  simp only [drainIter, hmode, hcross, if_pos rfl, Bool.false_eq_true, if_false, if_neg]
  simp

/-- The combined collect payload as the specification describes it: the
batch marker line, the overflow notice when one is pending, then one block
per item in enqueue order with its one-based position and its payload text,
each block trimmed of surrounding whitespace, the parts joined by blank
lines. -/
def claimCollectPayload (q : AnnounceQueueState) : String :=
  joinSep "\n\n"
    (["[Queued announce messages while agent was busy]"] ++
      (if 0 < q.droppedCount then [joinSep "\n" (overflowLines q)] else []) ++
      q.items.enum.map
        (fun p => jsTrim ("---\nQueued #" ++ toString (p.1 + 1) ++ "\n" ++ p.2.prompt)))

/-- Claim C3 as amended: in collect mode with cross-destination safety not
tripped and at least one item pending, a drain pass removes the entire
pending sequence and makes exactly one delivery whose payload is the batch
marker line, the overflow notice if one is pending, and one block per item
in enqueue order with its one-based position and its payload text, each
block trimmed of surrounding whitespace; the delivery carries the metadata
of the most recently enqueued item, and the drop debt is consumed. -/
theorem claim_C3 (q : AnnounceQueueState) (x : AnnounceQueueItem)
    (pre : List AnnounceQueueItem)
    (hmode : q.mode = QueueMode.collect)
    (hcross : hasCrossChannelItems q.items = false)
    (hitems : q.items = pre ++ [x])
    (hpol : q.dropPolicy = QueueDropPolicy.summarize)
    (hinv : q.droppedCount = 0 → q.summaryLines = []) :
    drainIter q false =
      .delivered { x with prompt := claimCollectPayload q }
        .collected { q with items := [], droppedCount := 0, summaryLines := [] } false := by
  have hlast : q.items.getLast? = some x := by
    rw [hitems]; exact List.getLast?_concat pre
  rw [drainIter_collect q hmode hcross, hlast]
  rcases Nat.eq_zero_or_pos q.droppedCount with hd | hd
  · have hsum : q.summaryLines = [] := hinv hd
    rw [claimCollectPayload, buildSummaryPrompt_neg { q with items := [] } (Or.inr hd), if_neg (by omega)]
    simp only [buildCollectPrompt, List.nil_append]
    simp [hd, hsum]
  · rw [claimCollectPayload, buildSummaryPrompt_pos { q with items := [] } hpol hd, if_pos hd]
    simp only [buildCollectPrompt]
    rw [if_neg (notice_ne_empty _)]
    simp [overflowLines_set_items]

/-- Queue of the counterexample to claim C3: one collect-mode item whose
payload carries trailing whitespace. -/
def c3Queue : AnnounceQueueState :=
  { items := [mkItem "hi "], draining := true, lastEnqueuedAt := 0,
    mode := QueueMode.collect, debounceMs := 0, cap := 20,
    dropPolicy := QueueDropPolicy.summarize, droppedCount := 0, summaryLines := [] }

/-- Counterexample to claim C3 as stated: the block of an item is trimmed,
so the delivered collect payload does not contain the raw payload text of an
item whose prompt ends in whitespace. -/
theorem claim_C3_counterexample :
    drainIter c3Queue false =
      .delivered
        { mkItem "hi " with
            prompt := "[Queued announce messages while agent was busy]\n\n---\nQueued #1\nhi" }
        .collected { c3Queue with items := [] } false ∧
    "[Queued announce messages while agent was busy]\n\n---\nQueued #1\nhi" ≠
      "[Queued announce messages while agent was busy]\n\n---\nQueued #1\n" ++
        (mkItem "hi ").prompt := by
  exact ⟨by decide, by decide⟩

/-- Queue used by the witness of the amended claim C3. -/
def c3Witness : AnnounceQueueState :=
  { items := [mkItem "A", mkItem "B"], draining := true, lastEnqueuedAt := 0,
    mode := QueueMode.collect, debounceMs := 0, cap := 20,
    dropPolicy := QueueDropPolicy.summarize, droppedCount := 1, summaryLines := ["s1"] }

/-- Witness for the amended claim C3: a two-item batch with a pending
overflow notice coalesces into one delivery carrying the metadata of the
most recent item. -/
theorem claim_C3_witness :
    drainIter c3Witness false =
      .delivered { mkItem "B" with prompt := claimCollectPayload c3Witness }
        .collected { c3Witness with items := [], droppedCount := 0, summaryLines := [] }
        false :=
  claim_C3 c3Witness (mkItem "B") [mkItem "A"] (by decide) (by decide) (by decide)
    (by decide) (by decide)

/-! Cross-destination safety: classification of items as the specification
describes them. -/

/-- An item with no destination metadata at all (every origin field absent
or empty). -/
def itemUnkeyed (it : AnnounceQueueItem) : Bool :=
  !truthyStr it.originatingChannel && !truthyStr it.originatingTo &&
    !truthyStr it.originatingAccountId

/-- A fully addressed item: channel and recipient both present and
nonempty. -/
def itemKeyed (it : AnnounceQueueItem) : Bool :=
  truthyStr it.originatingChannel && truthyStr it.originatingTo

/-- An item with incomplete destination metadata: some origin field is set
but channel or recipient is missing or empty. -/
def itemIncomplete (it : AnnounceQueueItem) : Bool := !itemUnkeyed it && !itemKeyed it

/-- The (channel, recipient, account) destination triple of an item. -/
def itemDestKey (it : AnnounceQueueItem) : String :=
  joinKey it.originatingChannel it.originatingTo it.originatingAccountId

/-- The cross-destination condition as the amended claim states it: an item
with incomplete metadata is present, or fully addressed items mix with items
lacking all metadata, or two fully addressed items differ in their
destination triple. -/
def specCrossDestination (items : List AnnounceQueueItem) : Bool :=
  items.any itemIncomplete ||
  (items.any itemKeyed && items.any itemUnkeyed) ||
  items.any (fun a => items.any (fun b =>
    itemKeyed a && itemKeyed b && itemDestKey a != itemDestKey b))

/-- The key set accumulated by the loop of hasCrossChannelItems. -/
def kAcc (keys : List String) (items : List AnnounceQueueItem) : List String :=
  items.foldl (fun acc it => if itemKeyed it then insK acc (itemDestKey it) else acc) keys

theorem insK_ne_nil (l : List String) (k : String) : insK l k ≠ [] := by
  rw [insK]
  split
  · intro h; subst h; simp at *
  · simp

theorem mem_insK (l : List String) (k x : String) : x ∈ insK l k ↔ x ∈ l ∨ x = k := by
  rw [insK]
  split
  · constructor
    · exact fun h => Or.inl h
    · rintro (h | rfl)
      · exact h
      · assumption
  · simp

theorem insK_nodup (l : List String) (k : String) (h : l.Nodup) : (insK l k).Nodup := by
  rw [insK]
  split
  · exact h
  · rename_i hk
    simp [List.nodup_append, h, hk]

theorem crossGo_eq (items : List AnnounceQueueItem) : ∀ (keys : List String) (u : Bool),
    crossGo items keys u =
      (items.any itemIncomplete ||
        (!(kAcc keys items).isEmpty &&
          (u || items.any itemUnkeyed || decide (1 < (kAcc keys items).length)))) := by
  induction items with
  | nil =>
    intro keys u
    simp only [crossGo, kAcc, List.foldl_nil, List.any_nil, Bool.false_or]
    cases keys with
    | nil => simp
    | cons a t =>
      simp only [List.isEmpty_cons, Bool.not_false, Bool.true_and]
      by_cases hu : u
      · simp [hu, crossGo]
      · simp only [hu, Bool.false_or]
        simp [crossGo, List.length_cons]
  | cons it rest ih =>
    intro keys u
    cases hC : truthyStr it.originatingChannel with
    | true =>
      cases hT : truthyStr it.originatingTo with
      | true =>
        have hkey : itemKeyed it = true := by simp [itemKeyed, hC, hT]
        have hunk : itemUnkeyed it = false := by simp [itemUnkeyed, hC]
        have hinc : itemIncomplete it = false := by simp [itemIncomplete, hkey]
        have hstep : crossGo (it :: rest) keys u =
            crossGo rest (insK keys (itemDestKey it)) u := by
          simp [crossGo, hC, hT, itemDestKey]
        rw [hstep, ih]
        simp [kAcc, List.foldl_cons, hkey, hinc, hunk, itemDestKey]
      | false =>
        have hinc : itemIncomplete it = true := by
          simp [itemIncomplete, itemUnkeyed, itemKeyed, hC, hT]
        have hstep : crossGo (it :: rest) keys u = true := by
          simp [crossGo, hC, hT]
        rw [hstep]
        simp [hinc]
    | false =>
      cases hT : truthyStr it.originatingTo with
      | true =>
        have hinc : itemIncomplete it = true := by
          simp [itemIncomplete, itemUnkeyed, itemKeyed, hC, hT]
        have hstep : crossGo (it :: rest) keys u = true := by
          simp [crossGo, hC, hT]
        rw [hstep]
        simp [hinc]
      | false =>
        cases hA : truthyStr it.originatingAccountId with
        | true =>
          have hinc : itemIncomplete it = true := by
            simp [itemIncomplete, itemUnkeyed, itemKeyed, hC, hT, hA]
          have hstep : crossGo (it :: rest) keys u = true := by
            simp [crossGo, hC, hT, hA]
          rw [hstep]
          simp [hinc]
        | false =>
          have hunk : itemUnkeyed it = true := by simp [itemUnkeyed, hC, hT, hA]
          have hkey : itemKeyed it = false := by simp [itemKeyed, hC]
          have hinc : itemIncomplete it = false := by simp [itemIncomplete, hunk]
          have hstep : crossGo (it :: rest) keys u = crossGo rest keys true := by
            simp [crossGo, hC, hT, hA]
          rw [hstep, ih]
          simp [kAcc, List.foldl_cons, hkey, hinc, hunk]

theorem kAcc_eq_nil_iff (items : List AnnounceQueueItem) :
    ∀ keys, kAcc keys items = [] ↔ keys = [] ∧ items.all (fun it => !itemKeyed it) := by
  induction items with
  | nil => intro keys; simp [kAcc]
  | cons it rest ih =>
    intro keys
    cases hk : itemKeyed it with
    | true =>
      rw [show kAcc keys (it :: rest) = kAcc (insK keys (itemDestKey it)) rest from by
        simp [kAcc, List.foldl_cons, hk]]
      rw [ih]
      constructor
      · rintro ⟨h1, -⟩
        exact absurd h1 (insK_ne_nil keys (itemDestKey it))
      · rintro ⟨-, hall⟩
        simp [List.all_cons, hk] at hall
    | false =>
      rw [show kAcc keys (it :: rest) = kAcc keys rest from by
        simp [kAcc, List.foldl_cons, hk]]
      rw [ih]
      simp [List.all_cons, hk]

theorem mem_kAcc (items : List AnnounceQueueItem) :
    ∀ (keys : List String) (x : String),
      x ∈ kAcc keys items ↔
        x ∈ keys ∨ ∃ it, it ∈ items ∧ itemKeyed it = true ∧ itemDestKey it = x := by
  induction items with
  | nil => intro keys x; simp [kAcc]
  | cons it rest ih =>
    intro keys x
    cases hk : itemKeyed it with
    | true =>
      rw [show kAcc keys (it :: rest) = kAcc (insK keys (itemDestKey it)) rest from by
        simp [kAcc, List.foldl_cons, hk]]
      rw [ih]
      rw [mem_insK]
      constructor
      · rintro ((h | rfl) | ⟨i2, hi2, hk2, hx2⟩)
        · exact Or.inl h
        · exact Or.inr ⟨it, List.mem_cons_self _ _, hk, rfl⟩
        · exact Or.inr ⟨i2, List.mem_cons_of_mem _ hi2, hk2, hx2⟩
      · rintro (h | ⟨i2, hi2, hk2, hx2⟩)
        · exact Or.inl (Or.inl h)
        · rcases List.mem_cons.mp hi2 with rfl | h2
          · exact Or.inl (Or.inr hx2.symm)
          · exact Or.inr ⟨i2, h2, hk2, hx2⟩
    | false =>
      rw [show kAcc keys (it :: rest) = kAcc keys rest from by
        simp [kAcc, List.foldl_cons, hk]]
      rw [ih]
      constructor
      · rintro (h | ⟨i2, hi2, hk2, hx2⟩)
        · exact Or.inl h
        · exact Or.inr ⟨i2, List.mem_cons_of_mem _ hi2, hk2, hx2⟩
      · rintro (h | ⟨i2, hi2, hk2, hx2⟩)
        · exact Or.inl h
        · rcases List.mem_cons.mp hi2 with rfl | h2
          · rw [hk2] at hk; exact absurd hk (by simp)
          · exact Or.inr ⟨i2, h2, hk2, hx2⟩

theorem kAcc_nodup (items : List AnnounceQueueItem) :
    ∀ keys : List String, keys.Nodup → (kAcc keys items).Nodup := by
  induction items with
  | nil => intro keys h; simpa [kAcc] using h
  | cons it rest ih =>
    intro keys h
    cases hk : itemKeyed it with
    | true =>
      rw [show kAcc keys (it :: rest) = kAcc (insK keys (itemDestKey it)) rest from by
        simp [kAcc, List.foldl_cons, hk]]
      exact ih _ (insK_nodup keys _ h)
    | false =>
      rw [show kAcc keys (it :: rest) = kAcc keys rest from by
        simp [kAcc, List.foldl_cons, hk]]
      exact ih keys h

theorem one_lt_length_iff_of_nodup (l : List String) (h : l.Nodup) :
    1 < l.length ↔ ∃ a, a ∈ l ∧ ∃ b, b ∈ l ∧ a ≠ b := by
  constructor
  · intro hl
    match l, h, hl with
    | a :: b :: t, h, _ =>
      refine ⟨a, List.mem_cons_self _ _, b, List.mem_cons_of_mem _ (List.mem_cons_self _ _), ?_⟩
      simp [List.nodup_cons] at h
      exact fun hab => h.1.1 hab
  · rintro ⟨a, ha, b, hb, hab⟩
    match l, ha, hb with
    | [], ha, _ => exact absurd ha (by simp)
    | [x], ha, hb =>
      simp at ha hb
      exact absurd (ha.trans hb.symm) hab
    | x :: y :: t, _, _ => simp [List.length_cons]

theorem hasCross_eq_spec (items : List AnnounceQueueItem) :
    hasCrossChannelItems items = specCrossDestination items := by
  have hbool : ∀ (a b : Bool), (a = true ↔ b = true) → a = b := by decide
  have hnodup := kAcc_nodup items [] List.nodup_nil
  have s1 : items.any itemKeyed = true ↔ kAcc [] items ≠ [] := by
    constructor
    · intro h
      obtain ⟨it, hit, hk⟩ := List.any_eq_true.mp h
      intro hnil
      have hmem : itemDestKey it ∈ kAcc [] items :=
        (mem_kAcc items [] _).mpr (Or.inr ⟨it, hit, hk, rfl⟩)
      rw [hnil] at hmem
      simp at hmem
    · intro h
      obtain ⟨x, hx⟩ := List.exists_mem_of_ne_nil _ h
      rcases (mem_kAcc items [] x).mp hx with h0 | ⟨it, hit, hk, -⟩
      · simp at h0
      · exact List.any_eq_true.mpr ⟨it, hit, hk⟩
  have s2 : 1 < (kAcc [] items).length ↔
      (items.any fun a => items.any fun b =>
        itemKeyed a && itemKeyed b && itemDestKey a != itemDestKey b) = true := by
    rw [one_lt_length_iff_of_nodup _ hnodup]
    constructor
    · rintro ⟨a, ha, b, hb, hab⟩
      rcases (mem_kAcc items [] a).mp ha with h0 | ⟨i1, hi1, hk1, hd1⟩
      · simp at h0
      rcases (mem_kAcc items [] b).mp hb with h0 | ⟨i2, hi2, hk2, hd2⟩
      · simp at h0
      refine List.any_eq_true.mpr ⟨i1, hi1, List.any_eq_true.mpr ⟨i2, hi2, ?_⟩⟩
      simp only [Bool.and_eq_true, bne_iff_ne]
      exact ⟨⟨hk1, hk2⟩, by rw [hd1, hd2]; exact hab⟩
    · intro h
      obtain ⟨i1, hi1, h2⟩ := List.any_eq_true.mp h
      obtain ⟨i2, hi2, h3⟩ := List.any_eq_true.mp h2
      simp only [Bool.and_eq_true, bne_iff_ne] at h3
      obtain ⟨⟨hk1, hk2⟩, hne⟩ := h3
      exact ⟨itemDestKey i1, (mem_kAcc items [] _).mpr (Or.inr ⟨i1, hi1, hk1, rfl⟩),
        itemDestKey i2, (mem_kAcc items [] _).mpr (Or.inr ⟨i2, hi2, hk2, rfl⟩), hne⟩
  have s3 : (items.any fun a => items.any fun b =>
      itemKeyed a && itemKeyed b && itemDestKey a != itemDestKey b) = true →
      items.any itemKeyed = true := by
    intro h
    obtain ⟨i1, hi1, h2⟩ := List.any_eq_true.mp h
    obtain ⟨i2, hi2, h3⟩ := List.any_eq_true.mp h2
    simp only [Bool.and_eq_true] at h3
    exact List.any_eq_true.mpr ⟨i1, hi1, h3.1.1⟩
  have hie : (kAcc [] items).isEmpty = false ↔ kAcc [] items ≠ [] := by
    cases h : kAcc [] items <;> simp [List.isEmpty]
  apply hbool
  rw [hasCrossChannelItems, crossGo_eq items [] false, specCrossDestination]
  simp only [Bool.or_eq_true, Bool.and_eq_true, Bool.not_eq_true',
    List.isEmpty_iff, Bool.false_or, decide_eq_true_eq]
  constructor
  · rintro (h | ⟨hne, hu | hlen⟩)
    · exact Or.inl (Or.inl h)
    · exact Or.inl (Or.inr ⟨s1.mpr (hie.mp hne), hu⟩)
    · exact Or.inr (s2.mp hlen)
  · rintro ((h | ⟨hky, hu⟩) | hp)
    · exact Or.inl h
    · exact Or.inr ⟨hie.mpr (s1.mp hky), Or.inl hu⟩
    · exact Or.inr ⟨hie.mpr (s1.mp (s3 hp)), Or.inr (s2.mpr hp)⟩

theorem drainIter_collect_trip (q : AnnounceQueueState)
    (hmode : q.mode = QueueMode.collect) :
    (drainIter q false).forceOut = hasCrossChannelItems q.items := by
  cases hcx : hasCrossChannelItems q.items with
  | true =>
    simp only [drainIter, hmode, hcx, if_pos rfl, Bool.false_eq_true, if_false]
    cases q.items <;> simp [IterResult.forceOut]
  | false =>
    rw [drainIter_collect q hmode hcx]
    cases q.items.getLast? <;> simp [IterResult.forceOut]

theorem drainIter_true_shape (q : AnnounceQueueState) :
    (∃ q1, drainIter q true = .exit q1 true) ∨
    (∃ sent q1, drainIter q true = .delivered sent .single q1 true) := by
  by_cases hm : q.mode = QueueMode.collect
  · simp only [drainIter, hm, if_pos rfl]
    cases q.items with
    | nil => exact Or.inl ⟨_, rfl⟩
    | cons a t => exact Or.inr ⟨_, _, rfl⟩
  · simp only [drainIter, if_neg hm]
    cases hbs : (buildSummaryPrompt q).1 with
    | some sp =>
      cases hit : (buildSummaryPrompt q).2.items with
      | nil => exact Or.inl ⟨_, rfl⟩
      | cons a t => exact Or.inr ⟨_, _, rfl⟩
    | none =>
      cases q.items with
      | nil => exact Or.inl ⟨_, rfl⟩
      | cons a t => exact Or.inr ⟨_, _, rfl⟩

theorem drainLoop_force_sticky : ∀ (fuel : Nat) (q : AnnounceQueueState)
    (ds : List Delivery) (q2 : AnnounceQueueState) (f2 : Bool),
    drainLoop fuel q true = some (ds, q2, f2) →
    (∀ d ∈ ds, d.kind = DeliveryKind.single) ∧ f2 = true := by
  intro fuel
  induction fuel with
  | zero => intro q ds q2 f2 h; simp [drainLoop] at h
  | succ fuel ih =>
    intro q ds q2 f2 h
    rw [drainLoop] at h
    by_cases hc : 0 < q.items.length ∨ 0 < q.droppedCount
    · rw [if_pos hc] at h
      rcases drainIter_true_shape q with ⟨q1, hiter⟩ | ⟨sent, q1, hiter⟩
      · rw [hiter] at h
        dsimp only at h
        simp only [Option.some.injEq, Prod.mk.injEq] at h
        obtain ⟨h1, -, h3⟩ := h
        subst h1
        exact ⟨by simp, h3.symm⟩
      · rw [hiter] at h
        dsimp only at h
        cases hrec : drainLoop fuel q1 true with
        | none => rw [hrec] at h; simp at h
        | some r =>
          obtain ⟨ds1, q3, f3⟩ := r
          rw [hrec] at h
          simp only [Option.some.injEq, Prod.mk.injEq] at h
          obtain ⟨hds, -, hf⟩ := h
          obtain ⟨hall, hf3⟩ := ih q1 ds1 q3 f3 hrec
          subst hds
          refine ⟨?_, by rw [← hf, hf3]⟩
          intro d hd
          rcases List.mem_cons.mp hd with rfl | hd2
          · rfl
          · exact hall d hd2
    · rw [if_neg hc] at h
      simp only [Option.some.injEq, Prod.mk.injEq] at h
      obtain ⟨h1, -, h3⟩ := h
      subst h1
      exact ⟨by simp, h3.symm⟩

theorem itemKeyed_not_unkeyed (it : AnnounceQueueItem) (h : itemKeyed it = true) :
    itemUnkeyed it = false := by
  simp only [itemKeyed, Bool.and_eq_true] at h
  simp [itemUnkeyed, h.1]

/-- Claim C2 as amended: the cross-destination check trips exactly when the
pending items contain an item with incomplete destination metadata, or span
more than one (channel, recipient, account) triple among fully addressed
items, or mix items lacking all destination metadata with items that have
some; in a collect-mode check the sticky flag after the step equals that
condition, a set flag stays set through every later step, every delivery of
a loop running with the flag set is individual (never a coalesced batch),
and a set of items that all share one full destination triple does not trip
the switch. -/
theorem claim_C2 :
    (∀ items, hasCrossChannelItems items = specCrossDestination items) ∧
    (∀ q, q.mode = QueueMode.collect →
      (drainIter q false).forceOut = hasCrossChannelItems q.items) ∧
    (∀ q, (drainIter q true).forceOut = true) ∧
    (∀ (fuel : Nat) (q : AnnounceQueueState) (ds : List Delivery)
      (q2 : AnnounceQueueState) (f2 : Bool), drainLoop fuel q true = some (ds, q2, f2) →
      (∀ d ∈ ds, d.kind = DeliveryKind.single) ∧ f2 = true) ∧
    (∀ items, (∀ it ∈ items, itemKeyed it = true) →
      (∀ a ∈ items, ∀ b ∈ items, itemDestKey a = itemDestKey b) →
      hasCrossChannelItems items = false) := by
  refine ⟨hasCross_eq_spec, drainIter_collect_trip, ?_, drainLoop_force_sticky, ?_⟩
  · intro q
    rcases drainIter_true_shape q with ⟨q1, hiter⟩ | ⟨sent, q1, hiter⟩ <;>
      rw [hiter] <;> rfl
  · intro items hall hkeys
    rw [hasCross_eq_spec, specCrossDestination]
    have h1 : items.any itemIncomplete = false := by
      rw [List.any_eq_false]
      intro it hit
      simp [itemIncomplete, hall it hit]
    have h2 : items.any itemUnkeyed = false := by
      rw [List.any_eq_false]
      intro it hit
      simp [itemKeyed_not_unkeyed it (hall it hit)]
    have h3 : (items.any fun a => items.any fun b =>
        itemKeyed a && itemKeyed b && itemDestKey a != itemDestKey b) = false := by
      rw [List.any_eq_false]
      intro a ha
      simp only [Bool.not_eq_true, List.any_eq_false]
      intro b hb
      simp [hkeys a ha b hb]
    rw [h1, h2, h3]
    simp

/-- First item of the counterexample to claim C2: fully addressed. -/
def c2Item1 : AnnounceQueueItem :=
  { mkItem "m1" with
      originatingChannel := some "wa"
      originatingTo := some "user"
      originatingAccountId := some "acct1" }

/-- Second item of the counterexample to claim C2: same channel and
recipient, different account id. -/
def c2Item2 : AnnounceQueueItem :=
  { mkItem "m2" with
      originatingChannel := some "wa"
      originatingTo := some "user"
      originatingAccountId := some "acct2" }

/-- Counterexample to claim C2 as stated: two items sharing one (channel,
recipient) pair but differing in account id do trip the cross-destination
switch, although the claim says a set of items sharing a single (channel,
recipient) pair never trips it. -/
theorem claim_C2_counterexample :
    c2Item1.originatingChannel = c2Item2.originatingChannel ∧
    c2Item1.originatingTo = c2Item2.originatingTo ∧
    hasCrossChannelItems [c2Item1, c2Item2] = true ∧
    (drainIter
      { items := [c2Item1, c2Item2], draining := true, lastEnqueuedAt := 0,
        mode := QueueMode.collect, debounceMs := 0, cap := 20,
        dropPolicy := QueueDropPolicy.summarize, droppedCount := 0,
        summaryLines := [] } false).forceOut = true := by
  decide

/-- Witness for the amended claim C2: items sharing one full destination
triple do not trip the switch. -/
theorem claim_C2_witness : hasCrossChannelItems [c2Item1, c2Item1] = false :=
  claim_C2.2.2.2.2 [c2Item1, c2Item1] (by decide) (by decide)

/-- The selection of the text summarized for a dropped item: the trimmed
summary line when nonempty, else the trimmed prompt. -/
def summaryBase (item : AnnounceQueueItem) : String :=
  match item.summaryLine with
  | some s => if jsTrim s = "" then jsTrim item.prompt else jsTrim s
  | none => jsTrim item.prompt

/-- The whitespace-collapsed and trimmed one-line text of a dropped item,
before elision. -/
def cleanedLine (item : AnnounceQueueItem) : String :=
  jsTrim ⟨collapseWs (summaryBase item).data⟩

theorem buildQueueSummaryLine_eq (item : AnnounceQueueItem) :
    buildQueueSummaryLine item = elideText (cleanedLine item) 160 := rfl

theorem mem_collapseWs_space (l : List Char) :
    ∀ c ∈ collapseWs l, jsIsSpace c = true → c = ' ' := by
  induction l with
  | nil => simp [collapseWs]
  | cons a t ih =>
    cases t with
    | nil =>
      intro c hc hws
      simp only [collapseWs] at hc
      by_cases ha : jsIsSpace a = true
      · simp [ha] at hc; exact hc
      · have hca : c = a := by simpa [ha] using hc
        subst hca
        exact absurd hws ha
    | cons b rest =>
      intro c hc hws
      simp only [collapseWs] at hc
      by_cases hab : (jsIsSpace a && jsIsSpace b) = true
      · rw [if_pos hab] at hc
        exact ih c hc hws
      · rw [if_neg hab] at hc
        rcases List.mem_cons.mp hc with rfl | hc2
        · by_cases ha : jsIsSpace a = true
          · simp [ha]
          · simp [ha] at hws ⊢
        · exact ih c hc2 hws

theorem collapseWs_head (b : Char) :
    ∀ rest : List Char,
      (collapseWs (b :: rest)).head? = some (if jsIsSpace b then ' ' else b) := by
  intro rest
  induction rest generalizing b with
  | nil => simp only [collapseWs]; split <;> simp
  | cons c rest2 ih =>
    simp only [collapseWs]
    by_cases hbc : (jsIsSpace b && jsIsSpace c) = true
    · rw [if_pos hbc]
      rw [ih c]
      simp only [Bool.and_eq_true] at hbc
      simp [hbc.1, hbc.2]
    · rw [if_neg hbc]
      simp

theorem collapseWs_chain (l : List Char) :
    (collapseWs l).Chain' (fun a b => ¬(jsIsSpace a = true ∧ jsIsSpace b = true)) := by
  induction l with
  | nil => simp [collapseWs]
  | cons a t ih =>
    cases t with
    | nil =>
      simp only [collapseWs]
      split <;> simp
    | cons b rest =>
      simp only [collapseWs]
      by_cases hab : (jsIsSpace a && jsIsSpace b) = true
      · rw [if_pos hab]
        simpa only [collapseWs] using ih
      · rw [if_neg hab]
        rw [List.chain'_cons']
        refine ⟨?_, by simpa only [collapseWs] using ih⟩
        intro y hy
        rw [collapseWs_head b rest] at hy
        simp only [Option.mem_def, Option.some.injEq] at hy
        subst hy
        simp only [Bool.and_eq_true] at hab
        by_cases ha : jsIsSpace a = true
        · have hb : jsIsSpace b = false := by
            cases hbv : jsIsSpace b
            · rfl
            · exact absurd ⟨ha, hbv⟩ hab
          simp [ha, hb]
        · simp [ha]

theorem dropWhile_head_not (l : List Char) :
    ∀ c, ((l.dropWhile jsIsSpace).head? = some c) → jsIsSpace c = false := by
  induction l with
  | nil => intro c h; simp [List.dropWhile] at h
  | cons a t ih =>
    intro c h
    by_cases ha : jsIsSpace a = true
    · rw [List.dropWhile_cons_of_pos ha] at h
      exact ih c h
    · rw [List.dropWhile_cons_of_neg ha] at h
      simp only [List.head?_cons, Option.some.injEq] at h
      subst h
      simpa using ha

theorem trimEndL_getLast_not (l : List Char) :
    ∀ c, ((trimEndL l).getLast? = some c) → jsIsSpace c = false := by
  intro c h
  rw [trimEndL, List.getLast?_reverse] at h
  exact dropWhile_head_not l.reverse c h

theorem trimEndL_prefix_self (l : List Char) : trimEndL l <+: l := by
  rw [trimEndL]
  rw [show l = l.reverse.reverse from (List.reverse_reverse l).symm]
  rw [ List.reverse_prefix]
  rw [List.reverse_reverse]
  exact List.dropWhile_suffix jsIsSpace

theorem trimEndL_length_le (l : List Char) : (trimEndL l).length ≤ l.length :=
  (trimEndL_prefix_self l).sublist.length_le

theorem prefix_head_eq (l1 l2 : List Char) (h : l1 <+: l2) :
    ∀ c, l1.head? = some c → l2.head? = some c := by
  obtain ⟨t, rfl⟩ := h
  intro c hc
  cases l1 with
  | nil => simp at hc
  | cons a t1 => simpa using hc

/-- The data of the cleaned line is a trimmed infix of the collapsed text. -/
theorem cleanedLine_data (it : AnnounceQueueItem) :
    (cleanedLine it).data = trimEndL (trimStartL (collapseWs (summaryBase it).data)) := rfl

theorem cleanedLine_mem_space (it : AnnounceQueueItem) :
    ∀ c ∈ (cleanedLine it).data, jsIsSpace c = true → c = ' ' := by
  intro c hc hws
  rw [cleanedLine_data] at hc
  have h1 : c ∈ trimStartL (collapseWs (summaryBase it).data) :=
    (trimEndL_prefix_self _).sublist.subset hc
  have h2 : c ∈ collapseWs (summaryBase it).data :=
    (List.dropWhile_suffix jsIsSpace).sublist.subset h1
  exact mem_collapseWs_space _ c h2 hws

theorem cleanedLine_chain (it : AnnounceQueueItem) :
    (cleanedLine it).data.Chain' (fun a b => ¬(jsIsSpace a = true ∧ jsIsSpace b = true)) := by
  rw [cleanedLine_data]
  exact List.Chain'.prefix ((collapseWs_chain _).suffix (List.dropWhile_suffix jsIsSpace)) (trimEndL_prefix_self _)

theorem cleanedLine_head_not (it : AnnounceQueueItem) :
    ∀ c, (cleanedLine it).data.head? = some c → jsIsSpace c = false := by
  intro c h
  rw [cleanedLine_data] at h
  have h2 := prefix_head_eq _ _ (trimEndL_prefix_self _) c h
  exact dropWhile_head_not _ c h2

theorem cleanedLine_getLast_not (it : AnnounceQueueItem) :
    ∀ c, (cleanedLine it).data.getLast? = some c → jsIsSpace c = false := by
  intro c h
  rw [cleanedLine_data] at h
  exact trimEndL_getLast_not _ c h

theorem summaryLine_props (it : AnnounceQueueItem) :
    (buildQueueSummaryLine it).length ≤ 160 ∧
    (∀ c ∈ (buildQueueSummaryLine it).data, jsIsSpace c = true → c = ' ') ∧
    (buildQueueSummaryLine it).data.Chain'
      (fun a b => ¬(jsIsSpace a = true ∧ jsIsSpace b = true)) ∧
    (∀ c, (buildQueueSummaryLine it).data.head? = some c → jsIsSpace c = false) ∧
    (∀ c, (buildQueueSummaryLine it).data.getLast? = some c → jsIsSpace c = false) ∧
    ((cleanedLine it).length ≤ 160 → buildQueueSummaryLine it = cleanedLine it) ∧
    (160 < (cleanedLine it).length →
      (buildQueueSummaryLine it).data.getLast? = some '…') := by
  rw [buildQueueSummaryLine_eq]
  by_cases h160 : (cleanedLine it).length ≤ 160
  · rw [elideText, if_pos h160]
    refine ⟨h160, cleanedLine_mem_space it, cleanedLine_chain it, cleanedLine_head_not it,
      cleanedLine_getLast_not it, fun _ => rfl, fun h => absurd h (by omega)⟩
  · rw [elideText, if_neg h160]
    have hdata : (jsTrimEnd ⟨(cleanedLine it).data.take (160 - 1)⟩ ++ "…").data =
        trimEndL ((cleanedLine it).data.take 159) ++ ['…'] := by
      rw [String.data_append]
      rfl
    have hlen : (jsTrimEnd ⟨(cleanedLine it).data.take (160 - 1)⟩ ++ "…").length =
        (trimEndL ((cleanedLine it).data.take 159)).length + 1 := by
      rw [String.length, hdata]
      simp
    have hsub : ∀ c ∈ trimEndL ((cleanedLine it).data.take 159), c ∈ (cleanedLine it).data :=
      fun c hc => ( List.take_prefix 159 _).sublist.subset
        ((trimEndL_prefix_self _).sublist.subset hc)
    refine ⟨?_, ?_, ?_, ?_, ?_, fun h => absurd h h160, ?_⟩
    · rw [hlen]
      have h1 := trimEndL_length_le ((cleanedLine it).data.take 159)
      have h2 : ((cleanedLine it).data.take 159).length ≤ 159 := by
        rw [List.length_take]; omega
      omega
    · intro c hc hws
      rw [hdata] at hc
      rcases List.mem_append.mp hc with hc1 | hc1
      · exact cleanedLine_mem_space it c (hsub c hc1) hws
      · simp only [List.mem_singleton] at hc1
        subst hc1
        exact absurd hws (by decide)
    · rw [hdata]
      refine List.Chain'.append ?_ (by simp) ?_
      · exact List.Chain'.prefix ((cleanedLine_chain it).take 159) (trimEndL_prefix_self _)
      · intro x hx y hy
        simp only [List.head?_cons, Option.mem_def, Option.some.injEq] at hy
        subst hy
        intro hcon
        exact absurd hcon.2 (by decide)
    · intro c h
      rw [hdata, List.head?_append] at h
      cases hL : (trimEndL ((cleanedLine it).data.take 159)).head? with
      | none =>
        rw [hL] at h
        have h2 : (some '…' : Option Char) = some c := by
          rw [← h]; rfl
        injection h2 with h3
        subst h3
        decide
      | some c2 =>
        rw [hL] at h
        have h2 : (some c2 : Option Char) = some c := by
          rw [← h]; rfl
        injection h2 with h3
        subst h3
        have h4 := prefix_head_eq _ _ (trimEndL_prefix_self _) c2 hL
        have h5 := prefix_head_eq _ _ ( List.take_prefix 159 _) c2 h4
        exact cleanedLine_head_not it c2 h5
    · intro c h
      rw [hdata, List.getLast?_concat] at h
      simp only [Option.some.injEq] at h
      subst h
      decide
    · intro h
      rw [hdata]
      exact List.getLast?_concat _

/-- Claim C6: an overflowing enqueue under evict-oldest-and-summarize
evicts exactly the minimum number of oldest items needed to make room (the
sequence ends at exactly the capacity), appends one stored summary line per
evicted item in order, and trims the summary list to at most capacity
entries dropping the oldest first; every stored summary line is at most 160
characters, contains no whitespace other than single interior spaces, has
no leading or trailing whitespace, equals the whitespace-collapsed trimmed
text when no truncation was needed, and ends with a horizontal ellipsis when
truncation occurred. -/
theorem claim_C6 (store : QueueStore) (key : String) (q : AnnounceQueueState)
    (item : AnnounceQueueItem) (s : QueueSettingsIn) (now : Nat)
    (hfind : storeFind store key = some q)
    (hcap : 0 < (applySettings q s).cap)
    (hfull : (applySettings q s).cap ≤ q.items.length)
    (hpol : (applySettings q s).dropPolicy = QueueDropPolicy.summarize) :
    (enqueueAnnounce store key item s now).1 = true ∧
    (∃ q2, storeFind (enqueueAnnounce store key item s now).2 key = some q2 ∧
      q2.items =
        q.items.drop (q.items.length - (applySettings q s).cap + 1) ++ [item] ∧
      q2.items.length = (applySettings q s).cap ∧
      q2.droppedCount =
        q.droppedCount + (q.items.length - (applySettings q s).cap + 1) ∧
      q2.summaryLines = shiftWhile
        (q.summaryLines ++
          (q.items.take (q.items.length - (applySettings q s).cap + 1)).map
            buildQueueSummaryLine)
        (applySettings q s).cap ∧
      q2.summaryLines.length ≤ (applySettings q s).cap ∧
      q2.summaryLines <:+
        (q.summaryLines ++
          (q.items.take (q.items.length - (applySettings q s).cap + 1)).map
            buildQueueSummaryLine)) ∧
    (∀ it : AnnounceQueueItem,
      (buildQueueSummaryLine it).length ≤ 160 ∧
      (∀ c ∈ (buildQueueSummaryLine it).data, jsIsSpace c = true → c = ' ') ∧
      (buildQueueSummaryLine it).data.Chain'
        (fun a b => ¬(jsIsSpace a = true ∧ jsIsSpace b = true)) ∧
      (∀ c, (buildQueueSummaryLine it).data.head? = some c → jsIsSpace c = false) ∧
      (∀ c, (buildQueueSummaryLine it).data.getLast? = some c → jsIsSpace c = false) ∧
      ((cleanedLine it).length ≤ 160 → buildQueueSummaryLine it = cleanedLine it) ∧
      (160 < (cleanedLine it).length →
        (buildQueueSummaryLine it).data.getLast? = some '…')) := by
  rw [enqueue_evict store key q item s now hfind hcap hfull hpol]
  refine ⟨rfl, ⟨_, storeFind_storeSet_self _ _ _, rfl, ?_, ?_, rfl, ?_, ?_⟩,
    summaryLine_props⟩
  · simp only [List.length_append, List.length_drop, List.length_cons, List.length_nil]
    omega
  · simp only [applySettings_droppedCount, List.length_take]
    omega
  · rw [shiftWhile]
    simp only [List.length_drop]
    omega
  · rw [shiftWhile]
    exact List.drop_suffix _ _

/-- Full queue used by the witness of claim C6. -/
def c6Queue : AnnounceQueueState :=
  { items := [mkItem "one  two ", mkItem "B2"], draining := false, lastEnqueuedAt := 0,
    mode := QueueMode.followup, debounceMs := 0, cap := 2,
    dropPolicy := QueueDropPolicy.summarize, droppedCount := 0, summaryLines := [] }

/-- Witness for claim C6: an overflowing enqueue on a full two-item queue
evicts exactly one item and stores its collapsed summary line. -/
theorem claim_C6_witness :
    (enqueueAnnounce [("k", c6Queue)] "k" (mkItem "C3") c5Settings 3).1 = true ∧
    (∃ q2, storeFind (enqueueAnnounce [("k", c6Queue)] "k" (mkItem "C3") c5Settings 3).2
        "k" = some q2 ∧
      q2.items = c6Queue.items.drop
          (c6Queue.items.length - (applySettings c6Queue c5Settings).cap + 1) ++ [mkItem "C3"] ∧
      q2.items.length = (applySettings c6Queue c5Settings).cap ∧
      q2.droppedCount = c6Queue.droppedCount +
        (c6Queue.items.length - (applySettings c6Queue c5Settings).cap + 1) ∧
      q2.summaryLines = shiftWhile
        (c6Queue.summaryLines ++
          (c6Queue.items.take
            (c6Queue.items.length - (applySettings c6Queue c5Settings).cap + 1)).map
            buildQueueSummaryLine)
        (applySettings c6Queue c5Settings).cap ∧
      q2.summaryLines.length ≤ (applySettings c6Queue c5Settings).cap ∧
      q2.summaryLines <:+
        (c6Queue.summaryLines ++
          (c6Queue.items.take
            (c6Queue.items.length - (applySettings c6Queue c5Settings).cap + 1)).map
            buildQueueSummaryLine)) ∧
    (∀ it : AnnounceQueueItem,
      (buildQueueSummaryLine it).length ≤ 160 ∧
      (∀ c ∈ (buildQueueSummaryLine it).data, jsIsSpace c = true → c = ' ') ∧
      (buildQueueSummaryLine it).data.Chain'
        (fun a b => ¬(jsIsSpace a = true ∧ jsIsSpace b = true)) ∧
      (∀ c, (buildQueueSummaryLine it).data.head? = some c → jsIsSpace c = false) ∧
      (∀ c, (buildQueueSummaryLine it).data.getLast? = some c → jsIsSpace c = false) ∧
      ((cleanedLine it).length ≤ 160 → buildQueueSummaryLine it = cleanedLine it) ∧
      (160 < (cleanedLine it).length →
        (buildQueueSummaryLine it).data.getLast? = some '…')) :=
  claim_C6 [("k", c6Queue)] "k" c6Queue (mkItem "C3") c5Settings 3
    (by decide) (by decide) (by decide) (by decide)
